import Mathlib

/-!
# Verification of the work-order timeline engine

A shallow embedding, in Lean 4, of the scheduling-timeline core of the
work-order management application: the Gregorian calendar / interval
arithmetic used by the timeline (d3's `timeDay` / `timeWeek` / `timeMonth`
floor, offset and range, idealised at UTC), the work-order store
(`addWorkOrder`, `updateWorkOrder`, `deleteWorkOrder`, `checkOverlap`),
the viewport controller (`calculateFitToData`, `calculateViewportRange`,
pan and infinite-scroll expansion), the per-frame bar-drag handler
(`onGlobalMouseMove`), and the derived geometry
(`calculateBarLeft`/`Width`, `calculateColumns`, `activeOrdersAtCursor`).

Instants are modelled as integer milliseconds since the Unix epoch
(JavaScript `Date.getTime()` values; `new Date(x)` for fractional `x`
truncates toward zero, modelled by `jsTrunc`).  Fractional intermediate
values (pixel ratios, percentages) are modelled as rationals.
Stored ISO `yyyy-MM-dd` date strings are modelled by the timestamp they
denote when parsed (midnight UTC of that calendar day); producing such a
string from an instant (`toIso`) therefore corresponds to flooring the
instant to its day.
-/

/-! ## Gregorian calendar arithmetic

Day numbers are days since 1970-01-01.  `daysFromCivil` and
`civilFromDays` convert between day numbers and civil dates `(y, m, d)`
(proleptic Gregorian, as JavaScript `Date` uses).  Both are staged into
small auxiliary definitions so that each stage can be characterised by a
linear-arithmetic lemma. -/

/-- Days before month `m` (1-based) in a non-leap year. -/
def monthPrefixDays (m : ℤ) : ℤ :=
  if m ≤ 1 then 0 else if m = 2 then 31 else if m = 3 then 59 else if m = 4 then 90
  else if m = 5 then 120 else if m = 6 then 151 else if m = 7 then 181 else if m = 8 then 212
  else if m = 9 then 243 else if m = 10 then 273 else if m = 11 then 304 else 334

/- Stages of `daysFromCivil`: a year `y` decomposes as
`y = 400·era + 100·c + 4·q + r` (era / century-of-era / 4-year block /
year-in-block). -/
def dfcEra (y : ℤ) : ℤ := y / 400
def dfcYoe (y : ℤ) : ℤ := y - dfcEra y * 400
def dfcC (y : ℤ) : ℤ := dfcYoe y / 100
def dfcYc (y : ℤ) : ℤ := dfcYoe y - dfcC y * 100
def dfcQ (y : ℤ) : ℤ := dfcYc y / 4
def dfcR (y : ℤ) : ℤ := dfcYc y - dfcQ y * 4

/-- `1` if year `y` is a Gregorian leap year, else `0`. -/
def leapFlag (y : ℤ) : ℤ :=
  if dfcR y = 0 ∧ (dfcC y = 0 ∨ 1 ≤ dfcQ y) then 1 else 0

/-- Day number (days since 1970-01-01) of the civil date `(y, m, d)`,
proleptic Gregorian calendar (the calendar JavaScript `Date` computes
with at UTC). -/
def daysFromCivil (y m d : ℤ) : ℤ :=
  146097 * dfcEra y
    + (36524 * dfcC y + (if 1 ≤ dfcC y then 1 else 0))
    + (1461 * dfcQ y - (if 1 ≤ dfcC y ∧ 1 ≤ dfcQ y then 1 else 0))
    + (365 * dfcR y + (if 1 ≤ dfcR y ∧ (dfcC y = 0 ∨ 1 ≤ dfcQ y) then 1 else 0))
    + (monthPrefixDays m + (if 3 ≤ m then leapFlag y else 0) + d - 1)
    - 719528

/- Stages of `civilFromDays`. -/
def cfdEra (z : ℤ) : ℤ := (z + 719528) / 146097
def cfdDoe (z : ℤ) : ℤ := (z + 719528) % 146097
def cfdC (z : ℤ) : ℤ := if cfdDoe z ≤ 36524 then 0 else (cfdDoe z - 36525) / 36524 + 1
def cfdDoc (z : ℤ) : ℤ := cfdDoe z - (36524 * cfdC z + (if 1 ≤ cfdC z then 1 else 0))
def cfdQ (z : ℤ) : ℤ :=
  if cfdC z = 0 then cfdDoc z / 1461
  else if cfdDoc z ≤ 1459 then 0 else (cfdDoc z - 1460) / 1461 + 1
def cfdDob (z : ℤ) : ℤ :=
  cfdDoc z - (1461 * cfdQ z - (if 1 ≤ cfdC z ∧ 1 ≤ cfdQ z then 1 else 0))
def cfdR (z : ℤ) : ℤ :=
  if cfdC z = 0 ∨ 1 ≤ cfdQ z then (if cfdDob z ≤ 365 then 0 else (cfdDob z - 366) / 365 + 1)
  else cfdDob z / 365
def cfdLeap (z : ℤ) : ℤ := if cfdR z = 0 ∧ (cfdC z = 0 ∨ 1 ≤ cfdQ z) then 1 else 0
def cfdDoy (z : ℤ) : ℤ :=
  cfdDob z - (365 * cfdR z + (if 1 ≤ cfdR z ∧ (cfdC z = 0 ∨ 1 ≤ cfdQ z) then 1 else 0))
/-- Year of the civil date of day number `z`. -/
def cfdY (z : ℤ) : ℤ := 400 * cfdEra z + 100 * cfdC z + 4 * cfdQ z + cfdR z
/-- Month (1..12) of the civil date of day number `z`. -/
def cfdM (z : ℤ) : ℤ :=
  if cfdDoy z ≤ 30 then 1 else if cfdDoy z ≤ 58 + cfdLeap z then 2
  else if cfdDoy z ≤ 89 + cfdLeap z then 3 else if cfdDoy z ≤ 119 + cfdLeap z then 4
  else if cfdDoy z ≤ 150 + cfdLeap z then 5 else if cfdDoy z ≤ 180 + cfdLeap z then 6
  else if cfdDoy z ≤ 211 + cfdLeap z then 7 else if cfdDoy z ≤ 242 + cfdLeap z then 8
  else if cfdDoy z ≤ 272 + cfdLeap z then 9 else if cfdDoy z ≤ 303 + cfdLeap z then 10
  else if cfdDoy z ≤ 333 + cfdLeap z then 11 else 12
/-- Day of month (1..31) of the civil date of day number `z`. -/
def cfdD (z : ℤ) : ℤ :=
  cfdDoy z - (monthPrefixDays (cfdM z) + (if 3 ≤ cfdM z then cfdLeap z else 0)) + 1

/-- Civil date `(y, m, d)` of day number `z`. -/
def civilFromDays (z : ℤ) : ℤ × ℤ × ℤ := (cfdY z, cfdM z, cfdD z)

/-! ### Stage lemmas -/

theorem cfd_era_doe (z : ℤ) :
    0 ≤ cfdDoe z ∧ cfdDoe z ≤ 146096 ∧ z = 146097 * cfdEra z + cfdDoe z - 719528 := by
  unfold cfdEra cfdDoe
  omega

theorem cfd_c_doc (z : ℤ) :
    0 ≤ cfdC z ∧ cfdC z ≤ 3 ∧ 0 ≤ cfdDoc z ∧
      (cfdC z = 0 → cfdDoc z ≤ 36524) ∧ (1 ≤ cfdC z → cfdDoc z ≤ 36523) ∧
      cfdDoe z = 36524 * cfdC z + (if 1 ≤ cfdC z then 1 else 0) + cfdDoc z := by
  obtain ⟨h0, h1, -⟩ := cfd_era_doe z
  unfold cfdDoc cfdC at *
  generalize cfdDoe z = doe at *
  omega

theorem cfd_q_dob (z : ℤ) :
    0 ≤ cfdQ z ∧ cfdQ z ≤ 24 ∧ 0 ≤ cfdDob z ∧
      ((cfdC z = 0 ∨ 1 ≤ cfdQ z) → cfdDob z ≤ 1460) ∧
      ((1 ≤ cfdC z ∧ cfdQ z = 0) → cfdDob z ≤ 1459) ∧
      cfdDoc z = 1461 * cfdQ z - (if 1 ≤ cfdC z ∧ 1 ≤ cfdQ z then 1 else 0) + cfdDob z := by
  obtain ⟨hc0, hc1, hd0, hd1, hd2, -⟩ := cfd_c_doc z
  unfold cfdDob cfdQ at *
  generalize cfdDoc z = doc at *
  generalize cfdC z = c at *
  omega

theorem cfd_r_doy (z : ℤ) :
    0 ≤ cfdR z ∧ cfdR z ≤ 3 ∧ 0 ≤ cfdDoy z ∧
      (cfdLeap z = 1 → cfdDoy z ≤ 365) ∧ (cfdLeap z = 0 → cfdDoy z ≤ 364) ∧
      (cfdLeap z = (if cfdR z = 0 ∧ (cfdC z = 0 ∨ 1 ≤ cfdQ z) then 1 else 0)) ∧
      cfdDob z = 365 * cfdR z + (if 1 ≤ cfdR z ∧ (cfdC z = 0 ∨ 1 ≤ cfdQ z) then 1 else 0)
        + cfdDoy z := by
  obtain ⟨hq0, hq1, hb0, hb1, hb2, -⟩ := cfd_q_dob z
  obtain ⟨hc0, hc1, -⟩ := cfd_c_doc z
  unfold cfdDoy cfdLeap cfdR at *
  generalize cfdDob z = dob at *
  generalize cfdQ z = q at *
  generalize cfdC z = c at *
  omega

theorem cfd_m_d (z : ℤ) :
    1 ≤ cfdM z ∧ cfdM z ≤ 12 ∧ 1 ≤ cfdD z ∧ cfdD z ≤ 31 ∧
      (cfdM z ≤ 11 →
        cfdDoy z < monthPrefixDays (cfdM z + 1) + (if 3 ≤ cfdM z + 1 then cfdLeap z else 0)) ∧
      (cfdM z = 12 → cfdDoy z ≤ 364 + cfdLeap z) ∧
      cfdDoy z = monthPrefixDays (cfdM z) + (if 3 ≤ cfdM z then cfdLeap z else 0)
        + cfdD z - 1 := by
  obtain ⟨hr0, hr1, hy0, hy1, hy2, hl, -⟩ := cfd_r_doy z
  unfold cfdD cfdM monthPrefixDays at *
  generalize cfdDoy z = doy at *
  generalize cfdLeap z = leap at *
  generalize cfdR z = r at *
  generalize cfdC z = c at *
  generalize cfdQ z = q at *
  omega

/-- The decomposition `y = 400·era + 100·c + 4·q + r` computed by the
`dfc` stages. -/
theorem dfc_decomp (y : ℤ) :
    0 ≤ dfcC y ∧ dfcC y ≤ 3 ∧ 0 ≤ dfcQ y ∧ dfcQ y ≤ 24 ∧ 0 ≤ dfcR y ∧ dfcR y ≤ 3 ∧
      y = 400 * dfcEra y + 100 * dfcC y + 4 * dfcQ y + dfcR y := by
  unfold dfcR dfcQ dfcYc dfcC dfcYoe dfcEra
  omega

/-- The `dfc` stages recover the components from which a year was
assembled. -/
theorem dfc_of_decomp (era c q r : ℤ) (hc : 0 ≤ c) (hc3 : c ≤ 3) (hq : 0 ≤ q)
    (hq24 : q ≤ 24) (hr : 0 ≤ r) (hr3 : r ≤ 3) :
    dfcEra (400 * era + 100 * c + 4 * q + r) = era ∧
      dfcC (400 * era + 100 * c + 4 * q + r) = c ∧
      dfcQ (400 * era + 100 * c + 4 * q + r) = q ∧
      dfcR (400 * era + 100 * c + 4 * q + r) = r := by
  unfold dfcR dfcQ dfcYc dfcC dfcYoe dfcEra
  omega

/-- Left inverse: converting the civil date of a day number back to a day
number is the identity. -/
theorem daysFromCivil_civilFromDays (z : ℤ) :
    daysFromCivil (cfdY z) (cfdM z) (cfdD z) = z := by
  obtain ⟨he0, he1, hez⟩ := cfd_era_doe z
  obtain ⟨hc0, hc1, hd0, hd1, hd2, hceq⟩ := cfd_c_doc z
  obtain ⟨hq0, hq1, hb0, hb1, hb2, hqeq⟩ := cfd_q_dob z
  obtain ⟨hr0, hr1, hy0, hy1, hy2, hl, hreq⟩ := cfd_r_doy z
  obtain ⟨hm0, hm1, hdd0, hdd1, hmlt, hm12, hmeq⟩ := cfd_m_d z
  obtain ⟨e1, e2, e3, e4⟩ := dfc_of_decomp (cfdEra z) (cfdC z) (cfdQ z) (cfdR z)
    hc0 hc1 hq0 hq1 hr0 hr1
  unfold daysFromCivil leapFlag
  unfold cfdY at *
  rw [e1, e2, e3, e4]
  generalize cfdM z = m at *
  generalize cfdD z = d at *
  generalize cfdDoy z = doy at *
  generalize cfdLeap z = leap at *
  generalize cfdR z = r at *
  generalize cfdDob z = dob at *
  generalize cfdQ z = q at *
  generalize cfdDoc z = doc at *
  generalize cfdC z = c at *
  generalize cfdDoe z = doe at *
  generalize cfdEra z = era at *
  unfold monthPrefixDays at *
  omega

/-- `daysFromCivil` is linear in the day-of-month argument. -/
theorem daysFromCivil_day_shift (y m d : ℤ) :
    daysFromCivil y m d = daysFromCivil y m 1 + (d - 1) := by
  unfold daysFromCivil
  ring

/-- Within one year, `daysFromCivil` differs only through the
month-prefix and day terms. -/
theorem daysFromCivil_same_year (y m m' d d' : ℤ) :
    daysFromCivil y m' d' - daysFromCivil y m d
      = (monthPrefixDays m' + (if 3 ≤ m' then leapFlag y else 0) + d')
        - (monthPrefixDays m + (if 3 ≤ m then leapFlag y else 0) + d) := by
  unfold daysFromCivil
  ring

/-- January 1 of consecutive years are 365 or 366 days apart, according
to the leap flag. -/
theorem daysFromCivil_year_succ (y : ℤ) :
    daysFromCivil (y + 1) 1 1 = daysFromCivil y 1 1 + 365 + leapFlag y := by
  obtain ⟨hc0, hc3, hq0, hq24, hr0, hr3, hy⟩ := dfc_decomp y
  obtain ⟨hc0', hc3', hq0', hq24', hr0', hr3', hy'⟩ := dfc_decomp (y + 1)
  unfold daysFromCivil leapFlag monthPrefixDays
  generalize dfcEra (y + 1) = e' at *
  generalize dfcC (y + 1) = c' at *
  generalize dfcQ (y + 1) = q' at *
  generalize dfcR (y + 1) = r' at *
  generalize dfcEra y = e at *
  generalize dfcC y = c at *
  generalize dfcQ y = q at *
  generalize dfcR y = r at *
  omega

/-- Bounds for the month-prefix table. -/
theorem monthPrefixDays_bounds (m : ℤ) : 0 ≤ monthPrefixDays m ∧ monthPrefixDays m ≤ 334 := by
  unfold monthPrefixDays
  omega

/-- The `cfd` stages evaluated at a flat month-start day number recover
the components it was assembled from. -/
theorem cfd_stages_of_flat (z0 era c q r m L P : ℤ)
    (hc0 : 0 ≤ c) (hc3 : c ≤ 3) (hq0 : 0 ≤ q) (hq24 : q ≤ 24)
    (hr0 : 0 ≤ r) (hr3 : r ≤ 3) (hm1 : 1 ≤ m) (hm2 : m ≤ 12)
    (hL : L = (if r = 0 ∧ (c = 0 ∨ 1 ≤ q) then 1 else 0))
    (hP : P = monthPrefixDays m)
    (hval : z0 = 146097 * era
        + (36524 * c + (if 1 ≤ c then 1 else 0))
        + (1461 * q - (if 1 ≤ c ∧ 1 ≤ q then 1 else 0))
        + (365 * r + (if 1 ≤ r ∧ (c = 0 ∨ 1 ≤ q) then 1 else 0))
        + (P + (if 3 ≤ m then L else 0))
        - 719528) :
    cfdY z0 = 400 * era + 100 * c + 4 * q + r ∧ cfdM z0 = m ∧ cfdD z0 = 1 := by
  have hPb : 0 ≤ P ∧ P ≤ 334 := hP ▸ monthPrefixDays_bounds m
  have h1 : cfdEra z0 = era := by
    unfold cfdEra
    omega
  have hdoe : cfdDoe z0 = z0 + 719528 - 146097 * era := by
    unfold cfdDoe
    omega
  have hc : cfdC z0 = c := by
    unfold cfdC
    omega
  have hdoc : cfdDoc z0 = cfdDoe z0 - (36524 * c + (if 1 ≤ c then 1 else 0)) := by
    unfold cfdDoc
    rw [hc]
  have hq : cfdQ z0 = q := by
    unfold cfdQ
    omega
  have hdob : cfdDob z0 = cfdDoc z0 - (1461 * q - (if 1 ≤ c ∧ 1 ≤ q then 1 else 0)) := by
    unfold cfdDob
    rw [hc, hq]
  have hr : cfdR z0 = r := by
    unfold cfdR
    omega
  have hleap : cfdLeap z0 = L := by
    unfold cfdLeap
    rw [hr, hc, hq, hL]
  have hdoy : cfdDoy z0
      = cfdDob z0 - (365 * r + (if 1 ≤ r ∧ (c = 0 ∨ 1 ≤ q) then 1 else 0)) := by
    unfold cfdDoy
    rw [hr, hc, hq]
  have hdoyval : cfdDoy z0 = P + (if 3 ≤ m then L else 0) := by
    omega
  have hM : cfdM z0 = m := by
    unfold cfdM
    rw [hdoyval, hleap, hP]
    interval_cases m <;> (unfold monthPrefixDays; omega)
  have hD : cfdD z0 = 1 := by
    unfold cfdD
    rw [hM, hdoyval, hleap, hP]
    interval_cases m <;> (unfold monthPrefixDays; omega)
  have hY : cfdY z0 = 400 * era + 100 * c + 4 * q + r := by
    unfold cfdY
    omega
  exact ⟨hY, hM, hD⟩

/-- Right inverse: the civil date of the day number of the first of a
month is that month's first day. -/
theorem civilFromDays_monthStart (y m : ℤ) (hm1 : 1 ≤ m) (hm2 : m ≤ 12) :
    cfdY (daysFromCivil y m 1) = y ∧ cfdM (daysFromCivil y m 1) = m ∧
      cfdD (daysFromCivil y m 1) = 1 := by
  obtain ⟨hc0, hc3, hq0, hq24, hr0, hr3, hy⟩ := dfc_decomp y
  have hval : daysFromCivil y m 1
      = 146097 * dfcEra y
        + (36524 * dfcC y + (if 1 ≤ dfcC y then 1 else 0))
        + (1461 * dfcQ y - (if 1 ≤ dfcC y ∧ 1 ≤ dfcQ y then 1 else 0))
        + (365 * dfcR y + (if 1 ≤ dfcR y ∧ (dfcC y = 0 ∨ 1 ≤ dfcQ y) then 1 else 0))
        + (monthPrefixDays m + (if 3 ≤ m then leapFlag y else 0))
        - 719528 := by
    unfold daysFromCivil
    ring
  obtain ⟨hY, hM, hD⟩ := cfd_stages_of_flat (daysFromCivil y m 1)
    (dfcEra y) (dfcC y) (dfcQ y) (dfcR y) m (leapFlag y) (monthPrefixDays m)
    hc0 hc3 hq0 hq24 hr0 hr3 hm1 hm2 (by unfold leapFlag; rfl) rfl hval
  rw [hY, hM, hD]
  omega

/-- Absolute month index: month `m` of year `y` has index `12·y + (m-1)`. -/
def monthIdx (z : ℤ) : ℤ := 12 * cfdY z + (cfdM z - 1)

/-- Day number of the first day of the month with absolute index `k`. -/
def monthStartDay (k : ℤ) : ℤ := daysFromCivil (k / 12) (k % 12 + 1) 1

/-- The leap flag of a reassembled year agrees with the `cfd` leap stage. -/
theorem leapFlag_cfdY (z : ℤ) : leapFlag (cfdY z) = cfdLeap z := by
  obtain ⟨hc0, hc1, -⟩ := cfd_c_doc z
  obtain ⟨hq0, hq1, -⟩ := cfd_q_dob z
  obtain ⟨hr0, hr1, -, -, -, hl, -⟩ := cfd_r_doy z
  obtain ⟨e1, e2, e3, e4⟩ := dfc_of_decomp (cfdEra z) (cfdC z) (cfdQ z) (cfdR z)
    hc0 hc1 hq0 hq1 hr0 hr1
  unfold leapFlag
  unfold cfdY at *
  rw [e2, e3, e4, hl]

/-- `monthStartDay` of the month of `z` is the first of that month. -/
theorem monthStartDay_monthIdx (z : ℤ) :
    monthStartDay (monthIdx z) = daysFromCivil (cfdY z) (cfdM z) 1 := by
  obtain ⟨hm1, hm2, -⟩ := cfd_m_d z
  unfold monthStartDay monthIdx
  have e1 : (12 * cfdY z + (cfdM z - 1)) / 12 = cfdY z := by omega
  have e2 : (12 * cfdY z + (cfdM z - 1)) % 12 + 1 = cfdM z := by omega
  rw [e1, e2]

/-- The first of the month of `z` is at most `z`. -/
theorem monthStartDay_monthIdx_le (z : ℤ) : monthStartDay (monthIdx z) ≤ z := by
  rw [monthStartDay_monthIdx]
  have hrt := daysFromCivil_civilFromDays z
  have hds := daysFromCivil_day_shift (cfdY z) (cfdM z) (cfdD z)
  obtain ⟨-, -, hd1, -⟩ := cfd_m_d z
  omega

/-- `z` is before the first of the month after the month of `z`. -/
theorem lt_monthStartDay_succ (z : ℤ) : z < monthStartDay (monthIdx z + 1) := by
  obtain ⟨hm1, hm2, hd1, hd31, hmlt, hm12, hmeq⟩ := cfd_m_d z
  have hrt := daysFromCivil_civilFromDays z
  have hds := daysFromCivil_day_shift (cfdY z) (cfdM z) (cfdD z)
  have hlf := leapFlag_cfdY z
  rcases lt_or_eq_of_le hm2 with h11 | h12
  · -- cfdM z ≤ 11: the next month is in the same year
    have e1 : (12 * cfdY z + (cfdM z - 1) + 1) / 12 = cfdY z := by omega
    have e2 : (12 * cfdY z + (cfdM z - 1) + 1) % 12 + 1 = cfdM z + 1 := by omega
    unfold monthIdx monthStartDay
    rw [e1, e2]
    have hsy := daysFromCivil_same_year (cfdY z) (cfdM z) (cfdM z + 1) 1 1
    rw [hlf] at hsy
    omega
  · -- cfdM z = 12: the next month is January of the next year
    have e1 : (12 * cfdY z + (cfdM z - 1) + 1) / 12 = cfdY z + 1 := by omega
    have e2 : (12 * cfdY z + (cfdM z - 1) + 1) % 12 + 1 = 1 := by omega
    unfold monthIdx monthStartDay
    rw [e1, e2]
    have hys := daysFromCivil_year_succ (cfdY z)
    have hsy := daysFromCivil_same_year (cfdY z) 1 (cfdM z) 1 (cfdD z)
    rw [hlf] at hys hsy
    have hp12 : monthPrefixDays 12 = 334 := by unfold monthPrefixDays; omega
    have hp1 : monthPrefixDays 1 = 0 := by unfold monthPrefixDays; omega
    rw [← h12] at hp12
    rw [hp12, hp1] at hsy
    obtain ⟨-, -, -, -, -, hl0, hl1⟩ := cfd_r_doy z
    have hll : cfdLeap z = 0 ∨ cfdLeap z = 1 := by
      rw [hl0]
      by_cases h : cfdR z = 0 ∧ (cfdC z = 0 ∨ 1 ≤ cfdQ z)
      · rw [if_pos h]; right; rfl
      · rw [if_neg h]; left; rfl
    omega

/-- `monthIdx` is a right inverse of `monthStartDay`, and month starts
have day-of-month 1. -/
theorem monthIdx_monthStartDay (k : ℤ) :
    monthIdx (monthStartDay k) = k ∧ cfdD (monthStartDay k) = 1 := by
  have h1 : 1 ≤ k % 12 + 1 := by omega
  have h2 : k % 12 + 1 ≤ 12 := by omega
  obtain ⟨hY, hM, hD⟩ := civilFromDays_monthStart (k / 12) (k % 12 + 1) h1 h2
  unfold monthStartDay monthIdx
  rw [hY, hM, hD]
  constructor
  · omega
  · rfl

/-- Month starts strictly increase with the month index. -/
theorem monthStartDay_strictMono : StrictMono monthStartDay := by
  apply strictMono_int_of_lt_succ
  intro k
  have h2 := lt_monthStartDay_succ (monthStartDay k)
  have h3 := (monthIdx_monthStartDay k).1
  rw [h3] at h2
  exact lt_of_le_of_lt (le_refl _) h2

/-- A day between two consecutive month starts lies in that month. -/
theorem monthIdx_eq_of_between (k z : ℤ) (h1 : monthStartDay k ≤ z)
    (h2 : z < monthStartDay (k + 1)) : monthIdx z = k := by
  rcases lt_trichotomy (monthIdx z) k with h | h | h
  · have hmono : monthIdx z + 1 ≤ k := h
    have := monthStartDay_strictMono.le_iff_le.mpr hmono
    have hlt := lt_monthStartDay_succ z
    omega
  · exact h
  · have hmono : k + 1 ≤ monthIdx z := h
    have := monthStartDay_strictMono.le_iff_le.mpr hmono
    have hle := monthStartDay_monthIdx_le z
    omega

/-! ## Interval arithmetic on millisecond instants

Models d3's `timeDay`, `timeWeek` (Sunday-based) and `timeMonth`
intervals at UTC.  `timeDay.floor` truncates to midnight,
`timeWeek.floor` to the preceding Sunday midnight (1970-01-04, day
number 3, was a Sunday), `timeMonth.floor` to the first of the month;
`offset` shifts by whole units (for months, JavaScript `setMonth`
semantics: the day-of-month is kept and overflows into the next month).
-/

def msPerDay : ℤ := 86400000
def msPerWeek : ℤ := 604800000

/-- `d3.timeDay.floor` at UTC. -/
def dayFloor (t : ℤ) : ℤ := msPerDay * (t / msPerDay)
/-- `d3.timeWeek.floor` (Sunday) at UTC. -/
def weekFloor (t : ℤ) : ℤ := msPerWeek * ((t - 3 * msPerDay) / msPerWeek) + 3 * msPerDay
/-- `d3.timeMonth.floor` at UTC. -/
def monthFloor (t : ℤ) : ℤ := msPerDay * monthStartDay (monthIdx (t / msPerDay))

/-- `d3.timeDay.offset` at UTC. -/
def dayOffset (t n : ℤ) : ℤ := t + n * msPerDay
/-- `d3.timeWeek.offset` at UTC. -/
def weekOffset (t n : ℤ) : ℤ := t + n * msPerWeek
/-- `d3.timeMonth.offset` at UTC (JavaScript `setMonth` semantics). -/
def monthOffset (t n : ℤ) : ℤ :=
  msPerDay * (monthStartDay (monthIdx (t / msPerDay) + n) + (cfdD (t / msPerDay) - 1))
    + t % msPerDay

/-- The three timescales of the timeline (`TimeScale` in
`work-order.model.ts`). -/
inductive TimeScale where
  | Day : TimeScale
  | Week : TimeScale
  | Month : TimeScale
deriving DecidableEq

/-- `interval.floor` for the d3 interval of a scale. -/
def scaleFloor : TimeScale → ℤ → ℤ
  | .Day => dayFloor
  | .Week => weekFloor
  | .Month => monthFloor

/-- `interval.offset` for the d3 interval of a scale. -/
def scaleOffset : TimeScale → ℤ → ℤ → ℤ
  | .Day => dayOffset
  | .Week => weekOffset
  | .Month => monthOffset

/-- `interval.ceil` for the d3 interval of a scale (d3 computes it as
flooring, stepping one unit, flooring again). -/
def scaleCeil (s : TimeScale) (t : ℤ) : ℤ :=
  scaleFloor s (scaleOffset s (scaleFloor s (t - 1)) 1)

/-- The day number of `z`'s month start plus the day-of-month offset
recovers `z`. -/
theorem monthStartDay_add_dom (z : ℤ) :
    monthStartDay (monthIdx z) + (cfdD z - 1) = z := by
  rw [monthStartDay_monthIdx]
  have hrt := daysFromCivil_civilFromDays z
  have hds := daysFromCivil_day_shift (cfdY z) (cfdM z) (cfdD z)
  omega

/-- Offsetting by zero months is the identity. -/
theorem monthOffset_zero (t : ℤ) : monthOffset t 0 = t := by
  unfold monthOffset
  have h := monthStartDay_add_dom (t / msPerDay)
  rw [add_zero, h]
  unfold msPerDay
  omega

/-- `monthOffset` strictly increases in the month count. -/
theorem monthOffset_lt_monthOffset (t n n' : ℤ) (h : n < n') :
    monthOffset t n < monthOffset t n' := by
  unfold monthOffset
  have hmono := monthStartDay_strictMono (show monthIdx (t / msPerDay) + n
    < monthIdx (t / msPerDay) + n' by omega)
  unfold msPerDay at *
  omega

/-- `monthOffset t 1` strictly exceeds `t`. -/
theorem lt_monthOffset_one (t : ℤ) : t < monthOffset t 1 := by
  have h0 := monthOffset_zero t
  have h1 := monthOffset_lt_monthOffset t 0 1 (by omega)
  omega

/-- The month floor of an instant is at most the instant. -/
theorem monthFloor_le (t : ℤ) : monthFloor t ≤ t := by
  have h1 := monthStartDay_monthIdx_le (t / msPerDay)
  unfold monthFloor
  unfold msPerDay at *
  omega

/-- A month boundary is its own floor; its day number is the month
start and its millisecond-of-day is zero. -/
theorem monthFloor_boundary (k : ℤ) :
    monthFloor (msPerDay * monthStartDay k) = msPerDay * monthStartDay k ∧
      (msPerDay * monthStartDay k) / msPerDay = monthStartDay k ∧
      (msPerDay * monthStartDay k) % msPerDay = 0 := by
  have hdiv : (msPerDay * monthStartDay k) / msPerDay = monthStartDay k := by
    unfold msPerDay
    omega
  have hmod : (msPerDay * monthStartDay k) % msPerDay = 0 := by
    unfold msPerDay
    omega
  refine ⟨?_, hdiv, hmod⟩
  unfold monthFloor
  rw [hdiv, (monthIdx_monthStartDay k).1]

/-- Offsetting a month boundary by one month gives the next month
boundary. -/
theorem monthOffset_boundary (k : ℤ) :
    monthOffset (msPerDay * monthStartDay k) 1 = msPerDay * monthStartDay (k + 1) := by
  obtain ⟨-, hdiv, hmod⟩ := monthFloor_boundary k
  unfold monthOffset
  rw [hdiv, hmod, (monthIdx_monthStartDay k).1, (monthIdx_monthStartDay k).2]
  ring

/-- An instant is before the next month boundary after its floor. -/
theorem lt_monthOffset_monthFloor (t : ℤ) : t < monthOffset (monthFloor t) 1 := by
  unfold monthFloor
  rw [monthOffset_boundary]
  have h1 := lt_monthStartDay_succ (t / msPerDay)
  unfold msPerDay at *
  omega

/-- `monthFloor` is constant between one month boundary and the next. -/
theorem monthFloor_eq_of_between (t u : ℤ) (h1 : monthFloor t ≤ u)
    (h2 : u < monthOffset (monthFloor t) 1) : monthFloor u = monthFloor t := by
  unfold monthFloor at *
  rw [monthOffset_boundary] at h2
  have hzu : monthStartDay (monthIdx (t / msPerDay)) ≤ u / msPerDay ∧
      u / msPerDay < monthStartDay (monthIdx (t / msPerDay) + 1) := by
    unfold msPerDay at *
    omega
  rw [monthIdx_eq_of_between (monthIdx (t / msPerDay)) (u / msPerDay) hzu.1 hzu.2]

/-- `monthFloor` of a floor is itself. -/
theorem monthFloor_monthFloor (t : ℤ) : monthFloor (monthFloor t) = monthFloor t := by
  have h := monthFloor_boundary (monthIdx (t / msPerDay))
  unfold monthFloor at *
  exact h.1

/-! ### Scale-generic interval facts -/

theorem scaleFloor_le (s : TimeScale) (t : ℤ) : scaleFloor s t ≤ t := by
  cases s
  · show dayFloor t ≤ t
    unfold dayFloor msPerDay
    omega
  · show weekFloor t ≤ t
    unfold weekFloor msPerWeek msPerDay
    omega
  · exact monthFloor_le t

theorem scaleFloor_idem (s : TimeScale) (t : ℤ) :
    scaleFloor s (scaleFloor s t) = scaleFloor s t := by
  cases s
  · show dayFloor (dayFloor t) = dayFloor t
    unfold dayFloor msPerDay
    omega
  · show weekFloor (weekFloor t) = weekFloor t
    unfold weekFloor msPerWeek msPerDay
    omega
  · exact monthFloor_monthFloor t

theorem lt_scaleOffset_one (s : TimeScale) (t : ℤ) : t < scaleOffset s t 1 := by
  cases s
  · show t < dayOffset t 1
    unfold dayOffset msPerDay
    omega
  · show t < weekOffset t 1
    unfold weekOffset msPerWeek
    omega
  · exact lt_monthOffset_one t

theorem lt_scaleOffset_scaleFloor (s : TimeScale) (t : ℤ) :
    t < scaleOffset s (scaleFloor s t) 1 := by
  cases s
  · show t < dayOffset (dayFloor t) 1
    unfold dayOffset dayFloor msPerDay
    omega
  · show t < weekOffset (weekFloor t) 1
    unfold weekOffset weekFloor msPerWeek msPerDay
    omega
  · exact lt_monthOffset_monthFloor t

theorem scaleFloor_scaleOffset_floor (s : TimeScale) (t : ℤ) :
    scaleFloor s (scaleOffset s (scaleFloor s t) 1) = scaleOffset s (scaleFloor s t) 1 := by
  cases s
  · show dayFloor (dayOffset (dayFloor t) 1) = dayOffset (dayFloor t) 1
    unfold dayOffset dayFloor msPerDay
    omega
  · show weekFloor (weekOffset (weekFloor t) 1) = weekOffset (weekFloor t) 1
    unfold weekOffset weekFloor msPerWeek msPerDay
    omega
  · show monthFloor (monthOffset (monthFloor t) 1) = monthOffset (monthFloor t) 1
    unfold monthFloor
    rw [monthOffset_boundary]
    exact (monthFloor_boundary (monthIdx (t / msPerDay) + 1)).1

theorem scaleFloor_eq_of_between (s : TimeScale) (t u : ℤ) (h1 : scaleFloor s t ≤ u)
    (h2 : u < scaleOffset s (scaleFloor s t) 1) : scaleFloor s u = scaleFloor s t := by
  cases s
  · have h1' : dayFloor t ≤ u := h1
    have h2' : u < dayOffset (dayFloor t) 1 := h2
    show dayFloor u = dayFloor t
    unfold dayOffset dayFloor msPerDay at *
    omega
  · have h1' : weekFloor t ≤ u := h1
    have h2' : u < weekOffset (weekFloor t) 1 := h2
    show weekFloor u = weekFloor t
    unfold weekOffset weekFloor msPerWeek msPerDay at *
    omega
  · exact monthFloor_eq_of_between t u h1 h2

/-! ## Data model and work-order store

`WorkOrderDocument` / `WorkCenterDocument` from `work-order.model.ts`;
store methods from `work-order.store.ts`.  Stored ISO `yyyy-MM-dd`
strings are modelled by the millisecond timestamp they denote when
parsed (`new Date(s).getTime()`, midnight UTC). -/

/-- `WorkOrderStatus` (source values `open`, `in-progress`, `complete`,
`blocked`; capitalised here because `open` is a Lean keyword). -/
inductive WorkOrderStatus where
  | Open : WorkOrderStatus
  | InProgress : WorkOrderStatus
  | Complete : WorkOrderStatus
  | Blocked : WorkOrderStatus
deriving DecidableEq

/-- The `data` payload of a work order. -/
structure WorkOrderData where
  name : String
  workCenterId : String
  status : WorkOrderStatus
  startDate : ℤ
  endDate : ℤ
deriving DecidableEq

/-- A stored work-order document. -/
structure WorkOrderDocument where
  docId : String
  docType : String
  data : WorkOrderData
deriving DecidableEq

/-- `addWorkOrder`: builds a document with a fresh id (the id supplied
by the uuid generator) and appends it to the collection. -/
def addWorkOrder (orders : List WorkOrderDocument) (freshId : String)
    (data : WorkOrderData) : List WorkOrderDocument :=
  orders ++ [{ docId := freshId, docType := "workOrder", data := data }]

/-- `updateWorkOrder`: replaces the `data` of every document whose
`docId` matches, leaving everything else as is. -/
def updateWorkOrder (orders : List WorkOrderDocument) (docId : String)
    (data : WorkOrderData) : List WorkOrderDocument :=
  orders.map fun o => if o.docId = docId then { o with data := data } else o

/-- `deleteWorkOrder`: removes every document whose `docId` matches. -/
def deleteWorkOrder (orders : List WorkOrderDocument) (docId : String) :
    List WorkOrderDocument :=
  orders.filter fun o => o.docId ≠ docId

/-- The per-order test inside `checkOverlap`'s `find`: not the excluded
document, same work center, and half-open ranges intersecting
(`startMs < orderEnd && endMs > orderStart`). -/
def conflictsWith (workCenterId : String) (startMs endMs : ℤ)
    (excludeDocId : Option String) (order : WorkOrderDocument) : Bool :=
  if some order.docId = excludeDocId then false
  else if order.data.workCenterId ≠ workCenterId then false
  else decide (startMs < order.data.endDate ∧ endMs > order.data.startDate)

/-- `checkOverlap`: first stored order conflicting with the candidate
range on the given work center, excluding `excludeDocId`. -/
def checkOverlap (orders : List WorkOrderDocument) (workCenterId : String)
    (startMs endMs : ℤ) (excludeDocId : Option String) : Option WorkOrderDocument :=
  orders.find? (conflictsWith workCenterId startMs endMs excludeDocId)

/-- `getOrdersForWorkCenter`. -/
def getOrdersForWorkCenter (orders : List WorkOrderDocument)
    (workCenterId : String) : List WorkOrderDocument :=
  orders.filter fun o => o.data.workCenterId = workCenterId

/-- `filteredWorkOrders`: the status-filtered collection (`none` models
the `'all'` filter). -/
def filteredWorkOrders (orders : List WorkOrderDocument)
    (statusFilter : Option WorkOrderStatus) : List WorkOrderDocument :=
  match statusFilter with
  | none => orders
  | some f => orders.filter fun o => o.data.status = f

/-- `conflictsWith` holds exactly for a non-excluded order on the same
center whose half-open range intersects the candidate. -/
theorem conflictsWith_iff (workCenterId : String) (startMs endMs : ℤ)
    (excl : Option String) (o : WorkOrderDocument) :
    conflictsWith workCenterId startMs endMs excl o = true ↔
      (some o.docId ≠ excl ∧ o.data.workCenterId = workCenterId ∧
        startMs < o.data.endDate ∧ endMs > o.data.startDate) := by
  unfold conflictsWith
  by_cases h1 : some o.docId = excl
  · simp [h1]
  · by_cases h2 : o.data.workCenterId = workCenterId
    · simp [h1, h2]
    · simp [h1, h2]

/-! ## Claim C1 -/

/-- C1: `checkOverlap(workCenterId, s1, e1)` treats a stored order with
range `[s2,e2)` as conflicting iff `s1 < e2 && e1 > s2` (on the same
center, not excluded): any returned order is a stored, non-excluded,
same-center order satisfying the strict inequalities; whenever some
stored order satisfies them a conflict is reported; an order touching
the candidate range (`e1 = s2` or `e2 = s1`) is never the reported
conflict, and neither is the order whose `docId` is `excludeDocId`. -/
theorem claim_C1_checkOverlap_iff (orders : List WorkOrderDocument)
    (wcId : String) (s1 e1 : ℤ) (excl : Option String) :
    (∀ o, checkOverlap orders wcId s1 e1 excl = some o →
      o ∈ orders ∧ some o.docId ≠ excl ∧ o.data.workCenterId = wcId ∧
        s1 < o.data.endDate ∧ e1 > o.data.startDate) ∧
    ((∃ o ∈ orders, some o.docId ≠ excl ∧ o.data.workCenterId = wcId ∧
        s1 < o.data.endDate ∧ e1 > o.data.startDate) →
      ∃ o, checkOverlap orders wcId s1 e1 excl = some o) ∧
    (∀ o, o ∈ orders → (e1 = o.data.startDate ∨ o.data.endDate = s1) →
      checkOverlap orders wcId s1 e1 excl ≠ some o) ∧
    (∀ o, checkOverlap orders wcId s1 e1 excl = some o → some o.docId ≠ excl) := by
  refine ⟨?_, ?_, ?_, ?_⟩
  · intro o h
    have hmem := List.mem_of_find?_eq_some h
    have hp := List.find?_some h
    rw [conflictsWith_iff] at hp
    exact ⟨hmem, hp.1, hp.2.1, hp.2.2⟩
  · rintro ⟨o, hmem, hprops⟩
    cases hfind : checkOverlap orders wcId s1 e1 excl with
    | some o' => exact ⟨o', rfl⟩
    | none =>
      exfalso
      have := List.find?_eq_none.mp hfind o hmem
      rw [conflictsWith_iff] at this
      exact this hprops
  · intro o hmem htouch h
    have hp := List.find?_some h
    rw [conflictsWith_iff] at hp
    rcases htouch with ht | ht
    · exact absurd hp.2.2.2 (by omega)
    · exact absurd hp.2.2.1 (by omega)
  · intro o h
    have hp := List.find?_some h
    rw [conflictsWith_iff] at hp
    exact hp.1

/-- Concrete store for the C1 witness: one order on `wc-1` spanning
`[10,20)`. -/
def c1Order : WorkOrderDocument :=
  { docId := "wo-1", docType := "workOrder",
    data := { name := "A", workCenterId := "wc-1", status := .Open,
              startDate := 10, endDate := 20 } }

/-- C1 witness: on the store `[c1Order]`, the candidate `[15,25)`
overlaps, so a conflict is reported; the touching candidate `[20,30)`
never reports `c1Order`. -/
theorem claim_C1_checkOverlap_iff_witness :
    (∃ o, checkOverlap [c1Order] "wc-1" 15 25 none = some o) ∧
      checkOverlap [c1Order] "wc-1" 20 30 none ≠ some c1Order := by
  constructor
  · exact (claim_C1_checkOverlap_iff [c1Order] "wc-1" 15 25 none).2.1
      ⟨c1Order, by decide, by decide, by decide, by decide, by decide⟩
  · exact (claim_C1_checkOverlap_iff [c1Order] "wc-1" 20 30 none).2.2.1
      c1Order (by decide) (by right; decide)

/-! ## Claim C9 -/

/-- C9: `updateWorkOrder(docId, data)` maps the collection pointwise:
the length (and hence the relative order) is unchanged, every document
with a different `docId` is exactly unchanged, and a matching document
keeps its `docId` and `docType` while only its `data` is replaced. -/
theorem claim_C9_updateWorkOrder_frame (orders : List WorkOrderDocument)
    (docId : String) (data : WorkOrderData) :
    (updateWorkOrder orders docId data).length = orders.length ∧
    (∀ i : ℕ, (updateWorkOrder orders docId data)[i]?
      = (orders[i]?).map fun o =>
          if o.docId = docId then { o with data := data } else o) := by
  constructor
  · unfold updateWorkOrder
    exact List.length_map _ _
  · intro i
    unfold updateWorkOrder
    exact List.getElem?_map _ _ _

/-! ## Claim C3 -/

/-- The engulfed order of the C3 counterexample: on `wc-1`, range
`[10,20)`. -/
def c3Engulfed : WorkOrderDocument :=
  { docId := "wo-1", docType := "workOrder",
    data := { name := "A", workCenterId := "wc-1", status := .Open,
              startDate := 10, endDate := 20 } }

/-- The data of the engulfing order added in the C3 counterexample:
same center, range `[5,25)` strictly containing `[10,20)`. -/
def c3EngulfingData : WorkOrderData :=
  { name := "B", workCenterId := "wc-1", status := .Open,
    startDate := 5, endDate := 25 }

/-- C3 counterexample: after adding the engulfing order,
`checkOverlap` on the engulfed order's own exact range with no
`excludeDocId` returns the engulfed order itself (the first match in
insertion order), not the newly added engulfing order. -/
theorem claim_C3_counterexample :
    checkOverlap (addWorkOrder [c3Engulfed] "wo-2" c3EngulfingData) "wc-1" 10 20 none
        = some c3Engulfed ∧
      checkOverlap (addWorkOrder [c3Engulfed] "wo-2" c3EngulfingData) "wc-1" 10 20 none
        ≠ some { docId := "wo-2", docType := "workOrder", data := c3EngulfingData } := by
  constructor
  · decide
  · decide

/-- C3 (amended): after `add` of an order engulfing an existing order
`E`, `checkOverlap` on `E`'s own exact range with no `excludeDocId`
does report a conflict, but the returned document is the first
conflicting order in insertion order — `E` itself (every order with a
non-empty range conflicts with its own range) — not the newly added
engulfing order. -/
theorem claim_C3_amended (pre post : List WorkOrderDocument)
    (E : WorkOrderDocument) (newData : WorkOrderData) (freshId : String)
    (hE : E.data.startDate < E.data.endDate)
    (hengulf : newData.startDate < E.data.startDate ∧
      E.data.endDate < newData.endDate ∧ newData.workCenterId = E.data.workCenterId)
    (hpre : ∀ o ∈ pre,
      conflictsWith E.data.workCenterId E.data.startDate E.data.endDate none o = false) :
    checkOverlap (addWorkOrder (pre ++ E :: post) freshId newData)
      E.data.workCenterId E.data.startDate E.data.endDate none = some E := by
  unfold checkOverlap addWorkOrder
  rw [List.append_assoc, List.find?_append]
  have hnone : (pre.find? (conflictsWith E.data.workCenterId E.data.startDate
      E.data.endDate none)) = none := by
    rw [List.find?_eq_none]
    intro o hmem
    rw [hpre o hmem]
    exact Bool.false_ne_true
  rw [hnone]
  have hEtrue : conflictsWith E.data.workCenterId E.data.startDate E.data.endDate none E
      = true := by
    rw [conflictsWith_iff]
    exact ⟨by simp, rfl, hE, hE⟩
  simp [hEtrue]

/-- C3 amended witness: the concrete engulfing scenario, with an empty
prefix. -/
theorem claim_C3_amended_witness :
    checkOverlap (addWorkOrder [c3Engulfed] "wo-2" c3EngulfingData)
      c3Engulfed.data.workCenterId c3Engulfed.data.startDate c3Engulfed.data.endDate none
      = some c3Engulfed := by
  have h := claim_C3_amended [] [] c3Engulfed c3EngulfingData "wo-2"
    (by decide) (by refine ⟨by decide, by decide, by decide⟩)
    (by intro o hmem; cases hmem)
  simpa using h

/-! ## Component state and geometry

`WorkOrderTimelineComponent` state (viewport, scale, cursor, status
filter) plus the pure geometry helpers of
`work-order-timeline.utils.ts`. -/

/-- JavaScript `new Date(x)` truncates a fractional millisecond count
toward zero. -/
def jsTrunc (q : ℚ) : ℤ := if q < 0 then ⌈q⌉ else ⌊q⌋

/-- The timeline component's state. -/
structure TimelineState where
  viewportStart : ℤ
  viewportEnd : ℤ
  timeScale : TimeScale
  cursorDate : Option ℤ
  statusFilter : Option WorkOrderStatus
  workOrders : List WorkOrderDocument

/-- `totalSpanMs`. -/
def totalSpanMs (st : TimelineState) : ℤ := st.viewportEnd - st.viewportStart

/-- The component's initial state: both viewport signals are
initialised to `new Date()` ("now"), scale `Day`, cursor at now,
status filter `'all'`. -/
def initialTimelineState (now : ℤ) (orders : List WorkOrderDocument) : TimelineState :=
  { viewportStart := now, viewportEnd := now, timeScale := .Day,
    cursorDate := some now, statusFilter := none, workOrders := orders }

/-- `calculateBarLeft`. -/
def calculateBarLeft (order : WorkOrderDocument) (viewportStartMs totalSpan : ℤ) : ℚ :=
  if totalSpan ≤ 0 then 0
  else ((order.data.startDate - viewportStartMs : ℤ) : ℚ) / (totalSpan : ℚ) * 100

/-- `calculateBarWidth`. -/
def calculateBarWidth (order : WorkOrderDocument) (totalSpan : ℤ) : ℚ :=
  if totalSpan ≤ 0 then 0
  else ((order.data.endDate - order.data.startDate : ℤ) : ℚ) / (totalSpan : ℚ) * 100

/-- `calculateCursorPositionPercent`. -/
def calculateCursorPositionPercent (cursorDate : Option ℤ)
    (viewportStart viewportEnd : ℤ) : ℚ :=
  match cursorDate with
  | none => -10
  | some c =>
    if viewportEnd - viewportStart ≤ 0 then 0
    else ((c - viewportStart : ℤ) : ℚ) / ((viewportEnd - viewportStart : ℤ) : ℚ) * 100

/-- The descending-by-start-date comparator of `activeOrdersAtCursor`'s
sort (`(a, b) => b.start - a.start`, and JavaScript sorts are stable). -/
def byStartDesc (a b : WorkOrderDocument) : Bool :=
  decide (b.data.startDate ≤ a.data.startDate)

/-- `activeOrdersAtCursor`: the (status-filtered) orders whose rendered
bar `[left, left+width]` contains the cursor's percent position, sorted
by start date descending; empty when the cursor percent is outside
`[0, 100]`. -/
def activeOrdersAtCursor (st : TimelineState) : List WorkOrderDocument :=
  let curPercent := calculateCursorPositionPercent st.cursorDate st.viewportStart st.viewportEnd
  if curPercent < 0 ∨ curPercent > 100 then []
  else
    List.mergeSort
      ((filteredWorkOrders st.workOrders st.statusFilter).filter fun order =>
        let left := calculateBarLeft order st.viewportStart (totalSpanMs st)
        let width := calculateBarWidth order (totalSpanMs st)
        decide (curPercent ≥ left ∧ curPercent ≤ left + width))
      byStartDesc

/-- Modelled from the spec (§4.5): `activeOrders(cursor, orders)` is
"all orders whose range overlaps `currentPeriodBounds` (using the same
half-open overlap rule), sorted by start date descending", where
`currentPeriodBounds(cursor, scale)` is "the floor/offset-derived
interval containing `cursor` at the active scale". -/
def specActiveOrders (st : TimelineState) : List WorkOrderDocument :=
  match st.cursorDate with
  | none => []
  | some c =>
    let pStart := scaleFloor st.timeScale c
    let pEnd := scaleOffset st.timeScale (scaleFloor st.timeScale c) 1
    List.mergeSort
      ((filteredWorkOrders st.workOrders st.statusFilter).filter fun o =>
        decide (o.data.startDate < pEnd ∧ o.data.endDate > pStart))
      byStartDesc

/-! ### Percent-arithmetic helpers -/

theorem percent_le_percent (T : ℚ) (hT : 0 < T) (a b : ℚ) :
    a / T * 100 ≤ b / T * 100 ↔ a ≤ b := by
  rw [mul_le_mul_right (by norm_num : (0:ℚ) < 100)]
  exact div_le_div_iff_of_pos_right hT

theorem percent_nonneg (T : ℚ) (hT : 0 < T) (a : ℚ) (ha : 0 ≤ a) : 0 ≤ a / T * 100 := by
  positivity

theorem percent_lt_zero (T : ℚ) (hT : 0 < T) (a : ℚ) (ha : a < 0) : a / T * 100 < 0 := by
  have h1 : a / T < 0 := div_neg_of_neg_of_pos ha hT
  nlinarith


theorem percent_lt_percent (T : ℚ) (hT : 0 < T) (a b : ℚ) :
    a / T * 100 < b / T * 100 ↔ a < b := by
  constructor
  · intro h
    by_contra hab
    exact absurd ((percent_le_percent T hT b a).mpr (not_lt.mp hab)) (not_le.mpr h)
  · intro h
    by_contra hab
    exact absurd ((percent_le_percent T hT b a).mp (not_lt.mp hab)) (not_le.mpr h)

/-- The comparator `byStartDesc` is transitive. -/
theorem byStartDesc_trans (a b c : WorkOrderDocument) :
    byStartDesc a b = true → byStartDesc b c = true → byStartDesc a c = true := by
  unfold byStartDesc
  simp only [decide_eq_true_eq]
  omega

/-- The comparator `byStartDesc` is total. -/
theorem byStartDesc_total (a b : WorkOrderDocument) :
    (byStartDesc a b || byStartDesc b a) = true := by
  unfold byStartDesc
  rcases le_total b.data.startDate a.data.startDate with h | h
  · simp [h]
  · simp [h]

/-- C2 (corrected): `activeOrdersAtCursor` is not the set of orders
overlapping the cursor's current-period bounds; it is the set of
(status-filtered) orders whose closed range `[start, end]` contains the
cursor instant itself, sorted by start date descending, provided the
cursor lies inside the viewport; when the cursor lies outside the
viewport it is empty. -/
theorem claim_C2_amended (st : TimelineState) (c : ℤ)
    (hc : st.cursorDate = some c) (hspan : st.viewportStart < st.viewportEnd) :
    ((st.viewportStart ≤ c ∧ c ≤ st.viewportEnd) →
      (∀ o, o ∈ activeOrdersAtCursor st ↔
        o ∈ filteredWorkOrders st.workOrders st.statusFilter ∧
          o.data.startDate ≤ c ∧ c ≤ o.data.endDate) ∧
      List.Perm (activeOrdersAtCursor st)
        ((filteredWorkOrders st.workOrders st.statusFilter).filter fun o =>
          decide (o.data.startDate ≤ c ∧ c ≤ o.data.endDate)) ∧
      (activeOrdersAtCursor st).Pairwise
        (fun a b => b.data.startDate ≤ a.data.startDate)) ∧
    ((c < st.viewportStart ∨ st.viewportEnd < c) → activeOrdersAtCursor st = []) := by
  have hT : (0 : ℚ) < ((st.viewportEnd - st.viewportStart : ℤ) : ℚ) := by
    exact_mod_cast (by omega : (0 : ℤ) < st.viewportEnd - st.viewportStart)
  have hTne : ¬ (st.viewportEnd - st.viewportStart ≤ 0) := by omega
  have hcur : calculateCursorPositionPercent st.cursorDate st.viewportStart st.viewportEnd
      = ((c - st.viewportStart : ℤ) : ℚ)
        / ((st.viewportEnd - st.viewportStart : ℤ) : ℚ) * 100 := by
    rw [hc]
    simp only [calculateCursorPositionPercent]
    rw [if_neg hTne]
  constructor
  · rintro ⟨hin1, hin2⟩
    -- the guard is false: the percent is within [0, 100]
    have h0 : (0 : ℚ) ≤ ((c - st.viewportStart : ℤ) : ℚ)
        / ((st.viewportEnd - st.viewportStart : ℤ) : ℚ) * 100 := by
      apply percent_nonneg _ hT
      exact_mod_cast (by omega : (0 : ℤ) ≤ c - st.viewportStart)
    have h100 : ((c - st.viewportStart : ℤ) : ℚ)
        / ((st.viewportEnd - st.viewportStart : ℤ) : ℚ) * 100 ≤ 100 := by
      have h1 : ((c - st.viewportStart : ℤ) : ℚ)
          ≤ ((st.viewportEnd - st.viewportStart : ℤ) : ℚ) := by
        exact_mod_cast (by omega : c - st.viewportStart ≤ st.viewportEnd - st.viewportStart)
      have h2 := (percent_le_percent _ hT _ _).mpr h1
      rwa [div_self (ne_of_gt hT), one_mul] at h2
    have hguard : ¬ (calculateCursorPositionPercent st.cursorDate st.viewportStart
        st.viewportEnd < 0 ∨
        calculateCursorPositionPercent st.cursorDate st.viewportStart st.viewportEnd > 100) := by
      rw [hcur]
      push_neg
      exact ⟨h0, h100⟩
    have hopen : activeOrdersAtCursor st
        = List.mergeSort
          ((filteredWorkOrders st.workOrders st.statusFilter).filter fun order =>
            let left := calculateBarLeft order st.viewportStart (totalSpanMs st)
            let width := calculateBarWidth order (totalSpanMs st)
            decide (calculateCursorPositionPercent st.cursorDate st.viewportStart
                st.viewportEnd ≥ left ∧
              calculateCursorPositionPercent st.cursorDate st.viewportStart
                st.viewportEnd ≤ left + width))
          byStartDesc := by
      unfold activeOrdersAtCursor
      rw [if_neg hguard]
    -- the per-order test is exactly closed containment of the cursor
    have hpred : ∀ o : WorkOrderDocument,
        (let left := calculateBarLeft o st.viewportStart (totalSpanMs st)
         let width := calculateBarWidth o (totalSpanMs st)
         decide (calculateCursorPositionPercent st.cursorDate st.viewportStart
              st.viewportEnd ≥ left ∧
           calculateCursorPositionPercent st.cursorDate st.viewportStart
              st.viewportEnd ≤ left + width))
          = decide (o.data.startDate ≤ c ∧ c ≤ o.data.endDate) := by
      intro o
      have hts : totalSpanMs st = st.viewportEnd - st.viewportStart := rfl
      have hleft : calculateBarLeft o st.viewportStart (totalSpanMs st)
          = ((o.data.startDate - st.viewportStart : ℤ) : ℚ)
            / ((st.viewportEnd - st.viewportStart : ℤ) : ℚ) * 100 := by
        unfold calculateBarLeft
        rw [hts, if_neg hTne]
      have hwidth : calculateBarWidth o (totalSpanMs st)
          = ((o.data.endDate - o.data.startDate : ℤ) : ℚ)
            / ((st.viewportEnd - st.viewportStart : ℤ) : ℚ) * 100 := by
        unfold calculateBarWidth
        rw [hts, if_neg hTne]
      simp only [hleft, hwidth, hcur]
      congr 1
      apply propext
      constructor
      · rintro ⟨hge, hle⟩
        have h1 := (percent_le_percent _ hT _ _).mp hge
        have heq : ((o.data.startDate - st.viewportStart : ℤ) : ℚ)
            + ((o.data.endDate - o.data.startDate : ℤ) : ℚ)
            = ((o.data.endDate - st.viewportStart : ℤ) : ℚ) := by
          push_cast
          ring
        rw [← add_mul, div_add_div_same, heq] at hle
        have h2 := (percent_le_percent _ hT _ _).mp hle
        constructor
        · have : (o.data.startDate - st.viewportStart : ℤ) ≤ (c - st.viewportStart : ℤ) := by
            exact_mod_cast h1
          omega
        · have : (c - st.viewportStart : ℤ) ≤ (o.data.endDate - st.viewportStart : ℤ) := by
            exact_mod_cast h2
          omega
      · rintro ⟨hge, hle⟩
        constructor
        · apply (percent_le_percent _ hT _ _).mpr
          exact_mod_cast (by omega : o.data.startDate - st.viewportStart ≤ c - st.viewportStart)
        · have heq : ((o.data.startDate - st.viewportStart : ℤ) : ℚ)
              + ((o.data.endDate - o.data.startDate : ℤ) : ℚ)
              = ((o.data.endDate - st.viewportStart : ℤ) : ℚ) := by
            push_cast
            ring
          rw [← add_mul, div_add_div_same, heq]
          apply (percent_le_percent _ hT _ _).mpr
          exact_mod_cast (by omega : c - st.viewportStart ≤ o.data.endDate - st.viewportStart)
    have hfilter : ((filteredWorkOrders st.workOrders st.statusFilter).filter fun order =>
        let left := calculateBarLeft order st.viewportStart (totalSpanMs st)
        let width := calculateBarWidth order (totalSpanMs st)
        decide (calculateCursorPositionPercent st.cursorDate st.viewportStart
            st.viewportEnd ≥ left ∧
          calculateCursorPositionPercent st.cursorDate st.viewportStart
            st.viewportEnd ≤ left + width))
        = (filteredWorkOrders st.workOrders st.statusFilter).filter fun o =>
            decide (o.data.startDate ≤ c ∧ c ≤ o.data.endDate) := by
      apply List.filter_congr
      intro o _
      exact hpred o
    rw [hopen, hfilter]
    refine ⟨?_, ?_, ?_⟩
    · intro o
      rw [List.mem_mergeSort, List.mem_filter]
      simp [decide_eq_true_eq]
    · exact List.mergeSort_perm _ _
    · have hs := List.sorted_mergeSort
        (fun a b c hab hbc => byStartDesc_trans a b c hab hbc)
        (fun a b => byStartDesc_total a b)
        ((filteredWorkOrders st.workOrders st.statusFilter).filter fun o =>
          decide (o.data.startDate ≤ c ∧ c ≤ o.data.endDate))
      exact hs.imp fun h => by
        unfold byStartDesc at h
        exact decide_eq_true_eq.mp h
  · intro hout
    unfold activeOrdersAtCursor
    rw [if_pos]
    rw [hcur]
    rcases hout with h | h
    · left
      apply percent_lt_zero _ hT
      exact_mod_cast (by omega : (c - st.viewportStart : ℤ) < 0)
    · right
      have h1 : ((st.viewportEnd - st.viewportStart : ℤ) : ℚ)
          < ((c - st.viewportStart : ℤ) : ℚ) := by
        exact_mod_cast (by omega : st.viewportEnd - st.viewportStart < c - st.viewportStart)
      have h2 := (percent_lt_percent _ hT _ _).mpr h1
      rw [div_self (ne_of_gt hT), one_mul] at h2
      exact h2

/-- C2 counterexample order: on `wc-1`, active `[432000000, 453600000)`
(day 5, midnight to 6:00) — it overlaps the cursor's day period but
ends before the cursor instant. -/
def cexC2Order : WorkOrderDocument :=
  { docId := "wo-1", docType := "workOrder",
    data := { name := "A", workCenterId := "wc-1", status := .Open,
              startDate := 432000000, endDate := 453600000 } }

/-- C2 counterexample state: viewport `[0, 864000000)` (ten days),
scale `Day`, cursor at `478800000` (day 5, 13:00). -/
def cexC2State : TimelineState :=
  { viewportStart := 0, viewportEnd := 864000000, timeScale := .Day,
    cursorDate := some 478800000, statusFilter := none,
    workOrders := [cexC2Order] }

/-- C2 counterexample: at this state the order overlaps the cursor's
current-period (day) bounds, so the spec's `activeOrders` contains it,
but `activeOrdersAtCursor` is empty — the code intersects orders with
the cursor instant, not with the current-period bounds. -/
theorem claim_C2_counterexample :
    activeOrdersAtCursor cexC2State = [] ∧
      specActiveOrders cexC2State = [cexC2Order] ∧
      ([] : List WorkOrderDocument) ≠ [cexC2Order] := by
  refine ⟨?_, ?_, by simp⟩
  · unfold activeOrdersAtCursor cexC2State
    simp only [calculateCursorPositionPercent, filteredWorkOrders, totalSpanMs,
      calculateBarLeft, calculateBarWidth, cexC2Order]
    norm_num [List.filter]
  · unfold specActiveOrders cexC2State
    simp only [filteredWorkOrders, cexC2Order]
    have hfl : scaleFloor TimeScale.Day 478800000 = 432000000 := by
      show dayFloor 478800000 = 432000000
      unfold dayFloor msPerDay
      decide
    have hof : scaleOffset TimeScale.Day 432000000 1 = 518400000 := by
      show dayOffset 432000000 1 = 518400000
      unfold dayOffset msPerDay
      decide
    rw [hfl, hof]
    norm_num [List.filter]

/-- C2 amended witness: at the counterexample state the cursor lies in
the viewport, so the amended membership characterisation applies to the
stored order. -/
theorem claim_C2_amended_witness :
    cexC2Order ∈ activeOrdersAtCursor cexC2State ↔
      cexC2Order ∈ filteredWorkOrders cexC2State.workOrders cexC2State.statusFilter ∧
        cexC2Order.data.startDate ≤ 478800000 ∧ (478800000 : ℤ) ≤ cexC2Order.data.endDate :=
  (((claim_C2_amended cexC2State 478800000 rfl (by decide)).1
    ⟨by decide, by decide⟩).1) cexC2Order

/-! ## fitToData (claims C4 and C8) -/

/-- `calculateFitToData`: for a non-empty collection, `start` is the
earliest order start offset back one scale unit (the JS loop starts
from `(Infinity, -Infinity)`, which over a non-empty list equals
folding `min`/`max` from the first element's dates), and the span is
the distance to the latest order end plus one week, at least 30 days.
Returns `none` (the JS `{start: null, end: null}`) for an empty
collection. -/
def calculateFitToData (orders : List WorkOrderDocument) (scale : TimeScale) :
    Option (ℤ × ℤ) :=
  match orders with
  | [] => none
  | o :: rest =>
    let minTime := rest.foldl (fun acc x => min acc x.data.startDate) o.data.startDate
    let maxTime := rest.foldl (fun acc x => max acc x.data.endDate) o.data.endDate
    let start := scaleOffset scale minTime (-1)
    let minDurationMs : ℤ := 30 * 24 * 60 * 60 * 1000
    let durationMs := max (maxTime - start + 7 * 24 * 60 * 60 * 1000) minDurationMs
    some (start, start + durationMs)

/-- The component's `fitToData`: applies `calculateFitToData` to the
(status-filtered) orders and sets the viewport, returning early — the
viewport unchanged — when it yields nulls. -/
def fitToData (st : TimelineState) : TimelineState :=
  match calculateFitToData (filteredWorkOrders st.workOrders st.statusFilter) st.timeScale with
  | none => st
  | some (s, e) => { st with viewportStart := s, viewportEnd := e }

theorem foldl_min_key (g : WorkOrderDocument → ℤ) (xs : List WorkOrderDocument) (a : ℤ) :
    (xs.foldl (fun acc x => min acc (g x)) a = a ∨
      ∃ x ∈ xs, xs.foldl (fun acc x => min acc (g x)) a = g x) ∧
    xs.foldl (fun acc x => min acc (g x)) a ≤ a ∧
    ∀ x ∈ xs, xs.foldl (fun acc x => min acc (g x)) a ≤ g x := by
  induction xs generalizing a with
  | nil => exact ⟨Or.inl rfl, le_refl a, by intro x hx; cases hx⟩
  | cons y ys ih =>
    obtain ⟨hcase, hle, hall⟩ := ih (min a (g y))
    rw [List.foldl_cons]
    refine ⟨?_, ?_, ?_⟩
    · rcases hcase with hacc | ⟨x, hx, hacc⟩
      · rcases le_total a (g y) with hay | hay
        · left
          rw [hacc, min_eq_left hay]
        · right
          exact ⟨y, List.mem_cons_self y ys, by rw [hacc, min_eq_right hay]⟩
      · right
        exact ⟨x, List.mem_cons_of_mem y hx, hacc⟩
    · exact le_trans hle (min_le_left _ _)
    · intro x hx
      rcases List.mem_cons.mp hx with rfl | hx
      · exact le_trans hle (min_le_right _ _)
      · exact hall x hx

theorem foldl_max_key (g : WorkOrderDocument → ℤ) (xs : List WorkOrderDocument) (a : ℤ) :
    (xs.foldl (fun acc x => max acc (g x)) a = a ∨
      ∃ x ∈ xs, xs.foldl (fun acc x => max acc (g x)) a = g x) ∧
    a ≤ xs.foldl (fun acc x => max acc (g x)) a ∧
    ∀ x ∈ xs, g x ≤ xs.foldl (fun acc x => max acc (g x)) a := by
  induction xs generalizing a with
  | nil => exact ⟨Or.inl rfl, le_refl a, by intro x hx; cases hx⟩
  | cons y ys ih =>
    obtain ⟨hcase, hle, hall⟩ := ih (max a (g y))
    rw [List.foldl_cons]
    refine ⟨?_, ?_, ?_⟩
    · rcases hcase with hacc | ⟨x, hx, hacc⟩
      · rcases le_total a (g y) with hay | hay
        · right
          exact ⟨y, List.mem_cons_self y ys, by rw [hacc, max_eq_right hay]⟩
        · left
          rw [hacc, max_eq_left hay]
      · right
        exact ⟨x, List.mem_cons_of_mem y hx, hacc⟩
    · exact le_trans (le_max_left _ _) hle
    · intro x hx
      rcases List.mem_cons.mp hx with rfl | hx
      · exact le_trans (le_max_right _ _) hle
      · exact hall x hx

/-- C4 (corrected): for every non-empty collection and every scale,
`calculateFitToData` sets `start` to the earliest order start offset
back by one scale unit — with no flooring to the scale — and `end` so
that the span covers the latest order end plus one week (604800000 ms)
with an enforced minimum total span of 30 days (2592000000 ms). -/
theorem claim_C4_amended (orders : List WorkOrderDocument) (scale : TimeScale)
    (h : orders ≠ []) :
    ∃ s e m M,
      calculateFitToData orders scale = some (s, e) ∧
      (m ∈ orders.map fun o => o.data.startDate) ∧
      (∀ o ∈ orders, m ≤ o.data.startDate) ∧
      (M ∈ orders.map fun o => o.data.endDate) ∧
      (∀ o ∈ orders, o.data.endDate ≤ M) ∧
      s = scaleOffset scale m (-1) ∧
      e = max (M + 604800000) (s + 2592000000) ∧
      2592000000 ≤ e - s ∧ M + 604800000 ≤ e := by
  match orders, h with
  | o :: rest, _ =>
    obtain ⟨hmc, hml, hma⟩ := foldl_min_key (fun x => x.data.startDate) rest o.data.startDate
    obtain ⟨hMc, hMl, hMa⟩ := foldl_max_key (fun x => x.data.endDate) rest o.data.endDate
    refine ⟨_, _, rest.foldl (fun acc x => min acc x.data.startDate) o.data.startDate,
      rest.foldl (fun acc x => max acc x.data.endDate) o.data.endDate,
      rfl, ?_, ?_, ?_, ?_, rfl, ?_, ?_, ?_⟩
    · rcases hmc with hacc | ⟨x, hx, hacc⟩
      · rw [hacc]
        exact List.mem_map_of_mem _ (List.mem_cons_self o rest)
      · rw [hacc]
        exact List.mem_map_of_mem _ (List.mem_cons_of_mem o hx)
    · intro x hx
      rcases List.mem_cons.mp hx with rfl | hx
      · exact hml
      · exact hma x hx
    · rcases hMc with hacc | ⟨x, hx, hacc⟩
      · rw [hacc]
        exact List.mem_map_of_mem _ (List.mem_cons_self o rest)
      · rw [hacc]
        exact List.mem_map_of_mem _ (List.mem_cons_of_mem o hx)
    · intro x hx
      rcases List.mem_cons.mp hx with rfl | hx
      · exact hMl
      · exact hMa x hx
    · omega
    · omega
    · omega

/-- C4 counterexample order: starts at `0` (1970-01-01, a Thursday, not
a week boundary) and ends ten days later. -/
def cexC4Order : WorkOrderDocument :=
  { docId := "wo-1", docType := "workOrder",
    data := { name := "A", workCenterId := "wc-1", status := .Open,
              startDate := 0, endDate := 864000000 } }

/-- C4 counterexample: at scale `Week`, `calculateFitToData` puts the
viewport start at the earliest start minus one week (`-604800000`),
whereas flooring the earliest start to the scale first and then
offsetting back one unit would give `-950400000`. -/
theorem claim_C4_counterexample :
    calculateFitToData [cexC4Order] TimeScale.Week = some (-604800000, 1987200000) ∧
      scaleOffset TimeScale.Week (scaleFloor TimeScale.Week 0) (-1) = -950400000 ∧
      (-604800000 : ℤ) ≠ -950400000 := by
  refine ⟨by decide, ?_, by decide⟩
  show weekOffset (weekFloor 0) (-1) = -950400000
  unfold weekOffset weekFloor msPerWeek msPerDay
  decide

/-- C4 amended witness: the single-order collection at scale `Week`. -/
theorem claim_C4_amended_witness :
    ∃ s e m M,
      calculateFitToData [cexC4Order] TimeScale.Week = some (s, e) ∧
      (m ∈ [cexC4Order].map fun o => o.data.startDate) ∧
      (∀ o ∈ [cexC4Order], m ≤ o.data.startDate) ∧
      (M ∈ [cexC4Order].map fun o => o.data.endDate) ∧
      (∀ o ∈ [cexC4Order], o.data.endDate ≤ M) ∧
      s = scaleOffset TimeScale.Week m (-1) ∧
      e = max (M + 604800000) (s + 2592000000) ∧
      2592000000 ≤ e - s ∧ M + 604800000 ≤ e :=
  claim_C4_amended [cexC4Order] TimeScale.Week (by simp)

/-! ## fitToData on an empty collection (claim C8) -/

/-- Modelled from the spec (§4.2 fallback, §8 scenario): with an empty
collection and scale `Day`, the spec expects the viewport start to be
"now" offset back one day. -/
def specEmptyFitStart (now : ℤ) : ℤ := dayOffset now (-1)

/-- C8 counterexample state: empty order collection, viewport `[5, 9)`,
scale `Day`. -/
def cexC8State : TimelineState :=
  { viewportStart := 5, viewportEnd := 9, timeScale := .Day,
    cursorDate := none, statusFilter := none, workOrders := [] }

/-- C8 counterexample: `fitToData` on an empty collection returns with
the viewport unchanged; in particular (taking "now" = 0) the resulting
start is not "now" offset back one day, so the viewport is not centered
on "now". -/
theorem claim_C8_counterexample :
    fitToData cexC8State = cexC8State ∧
      (fitToData cexC8State).viewportStart ≠ specEmptyFitStart 0 := by
  constructor
  · rfl
  · show (5 : ℤ) ≠ dayOffset 0 (-1)
    unfold dayOffset msPerDay
    decide

/-- C8 (corrected): `fitToData` applied to an empty (status-filtered)
order collection is a no-op — the viewport is left unchanged; it does
not center on "now". -/
theorem claim_C8_amended (st : TimelineState)
    (h : filteredWorkOrders st.workOrders st.statusFilter = []) :
    fitToData st = st := by
  unfold fitToData
  rw [h]
  rfl

/-- C8 amended witness. -/
theorem claim_C8_amended_witness : fitToData cexC8State = cexC8State :=
  claim_C8_amended cexC8State rfl

/-! ## Viewport operations (claim C6) -/

/-- `calculateViewportRange`: a symmetric window around `date` (±10
days / ±5 weeks / ±6 months), then floored/ceiled to scale
boundaries. -/
def calculateViewportRange (date : ℤ) (scale : TimeScale) : ℤ × ℤ :=
  let raw : ℤ × ℤ :=
    match scale with
    | .Day => (dayOffset date (-10), dayOffset date 10)
    | .Week => (weekOffset date (-5), weekOffset date 5)
    | .Month => (monthOffset date (-6), monthOffset date 6)
  (scaleFloor scale raw.1, scaleCeil scale raw.2)

/-- `centerViewportOn`. -/
def centerViewportOn (st : TimelineState) (date : ℤ) : TimelineState :=
  let r := calculateViewportRange date st.timeScale
  { st with viewportStart := r.1, viewportEnd := r.2, cursorDate := some date }

/-- A pan frame of `onGlobalMouseMove`: shifts the viewport by the
pointer delta converted through the pixel-to-time ratio, keeping the
span (as a real number; each endpoint is then truncated by `new
Date`). -/
def panFrame (st : TimelineState) (panStartViewportStart : ℤ) (dx rectWidth : ℚ) :
    TimelineState :=
  let totalMs := totalSpanMs st
  let msPerPx := (totalMs : ℚ) / rectWidth
  let deltaMs := dx * msPerPx
  let newStart := (panStartViewportStart : ℚ) - deltaMs
  let newEnd := newStart + (totalMs : ℚ)
  { st with viewportStart := jsTrunc newStart, viewportEnd := jsTrunc newEnd }

/-- `minDataDate`: earliest loaded order start, or "now" if none. -/
def minDataDate (st : TimelineState) (now : ℤ) : ℤ :=
  match (filteredWorkOrders st.workOrders st.statusFilter).map (fun o => o.data.startDate) with
  | [] => now
  | t :: ts => ts.foldl min t

/-- The right-expansion branch of `checkInfiniteScroll`: adds half the
current span to the viewport end. -/
def expandRightStep (st : TimelineState) : TimelineState :=
  { st with viewportEnd := jsTrunc ((st.viewportEnd : ℚ) + (totalSpanMs st : ℚ) * (1 / 2)) }

/-- The left-expansion branch of `checkInfiniteScroll`: moves the
viewport start back by half the span, clamped at one week before the
earliest loaded order, and only when the start is more than a second
past that limit. -/
def expandLeftStep (st : TimelineState) (now : ℤ) : TimelineState :=
  let limitTime := minDataDate st now - 7 * 86400000
  if st.viewportStart > limitTime + 1000 then
    { st with viewportStart :=
        jsTrunc (max (limitTime : ℚ)
          ((st.viewportStart : ℚ) - (totalSpanMs st : ℚ) * (1 / 2))) }
  else st

/-- `jsTrunc` sits between floor and ceiling. -/
theorem jsTrunc_bounds (q : ℚ) : ⌊q⌋ ≤ jsTrunc q ∧ jsTrunc q ≤ ⌈q⌉ := by
  unfold jsTrunc
  by_cases h : q < 0
  · rw [if_pos h]
    exact ⟨Int.floor_le_ceil q, le_refl _⟩
  · rw [if_neg h]
    exact ⟨le_refl _, Int.floor_le_ceil q⟩

/-- Adding an integer to the argument changes `jsTrunc` by that integer
up to one unit (exactly, except when the sign changes across zero). -/
theorem jsTrunc_add_int_bounds (q : ℚ) (n : ℤ) (hn : 0 ≤ n) :
    n - 1 ≤ jsTrunc (q + (n : ℚ)) - jsTrunc q ∧ jsTrunc (q + (n : ℚ)) - jsTrunc q ≤ n := by
  have hfl : ⌊q + (n : ℚ)⌋ = ⌊q⌋ + n := Int.floor_add_int q n
  have hcl : ⌈q + (n : ℚ)⌉ = ⌈q⌉ + n := Int.ceil_add_int q n
  have hfc : ⌊q⌋ ≤ ⌈q⌉ := Int.floor_le_ceil q
  have hcf : ⌈q⌉ ≤ ⌊q⌋ + 1 := Int.ceil_le_floor_add_one q
  unfold jsTrunc
  by_cases h1 : q < 0
  · by_cases h2 : q + (n : ℚ) < 0
    · rw [if_pos h1, if_pos h2, hcl]
      omega
    · rw [if_pos h1, if_neg h2, hfl]
      have hc0 : ⌈q⌉ ≤ 0 := Int.ceil_le.mpr (by exact_mod_cast le_of_lt h1)
      have hf0 : 0 ≤ ⌊q⌋ + n := by
        rw [← hfl]
        exact Int.le_floor.mpr (not_lt.mp h2)
      omega
  · have h2 : ¬ (q + (n : ℚ) < 0) := by
      push_neg at h1 ⊢
      have : (0 : ℚ) ≤ (n : ℚ) := by exact_mod_cast hn
      linarith
    rw [if_neg h1, if_neg h2, hfl]
    omega

/-- The 30-day minimum span of `calculateFitToData`. -/
theorem calculateFitToData_span (orders : List WorkOrderDocument) (scale : TimeScale)
    (s e : ℤ) (h : calculateFitToData orders scale = some (s, e)) : 2592000000 ≤ e - s := by
  match orders with
  | [] => exact absurd h (by unfold calculateFitToData; exact Option.noConfusion)
  | o :: rest =>
    unfold calculateFitToData at h
    rw [Option.some_inj, Prod.mk.injEq] at h
    obtain ⟨h1, h2⟩ := h
    omega

/-- `scaleCeil` is an upper bound. -/
theorem le_scaleCeil (s : TimeScale) (t : ℤ) : t ≤ scaleCeil s t := by
  have h1 := scaleFloor_scaleOffset_floor s (t - 1)
  have h2 := lt_scaleOffset_scaleFloor s (t - 1)
  unfold scaleCeil
  omega

/-- C6 (corrected): the viewport invariant `start < end` does not hold
initially — both signals are initialised to "now", so `start = end` —
and no clamping is performed; however every viewport-mutating operation
maintains it: a pan frame preserves the span up to the one-millisecond
`new Date` truncation (exactly preserving `start < end` whenever the
span is at least 2 ms), infinite-scroll expansion right/left only grows
the viewport, `fitToData` on a non-empty collection establishes a span
of at least 30 days, and center-on-date always produces `start < end`. -/
theorem claim_C6_amended :
    (∀ now orders, (initialTimelineState now orders).viewportStart
        = (initialTimelineState now orders).viewportEnd) ∧
    (∀ st pS dx w, 0 ≤ totalSpanMs st →
        totalSpanMs st - 1 ≤ totalSpanMs (panFrame st pS dx w) ∧
        totalSpanMs (panFrame st pS dx w) ≤ totalSpanMs st ∧
        (2 ≤ totalSpanMs st →
          (panFrame st pS dx w).viewportStart < (panFrame st pS dx w).viewportEnd)) ∧
    (∀ st, st.viewportStart < st.viewportEnd →
        (expandRightStep st).viewportStart < (expandRightStep st).viewportEnd) ∧
    (∀ st now, st.viewportStart < st.viewportEnd →
        (expandLeftStep st now).viewportStart < (expandLeftStep st now).viewportEnd) ∧
    (∀ st, filteredWorkOrders st.workOrders st.statusFilter ≠ [] →
        (fitToData st).viewportStart < (fitToData st).viewportEnd) ∧
    (∀ date scale, (calculateViewportRange date scale).1
        < (calculateViewportRange date scale).2) := by
  refine ⟨fun now orders => rfl, ?_, ?_, ?_, ?_, ?_⟩
  · -- pan
    intro st pS dx w hT
    have hb := jsTrunc_add_int_bounds ((pS : ℚ) - dx * ((totalSpanMs st : ℚ) / w))
      (totalSpanMs st) hT
    have hspan : totalSpanMs (panFrame st pS dx w)
        = jsTrunc ((pS : ℚ) - dx * ((totalSpanMs st : ℚ) / w) + (totalSpanMs st : ℚ))
          - jsTrunc ((pS : ℚ) - dx * ((totalSpanMs st : ℚ) / w)) := rfl
    have hsv : (panFrame st pS dx w).viewportStart
        = jsTrunc ((pS : ℚ) - dx * ((totalSpanMs st : ℚ) / w)) := rfl
    have hev : (panFrame st pS dx w).viewportEnd
        = jsTrunc ((pS : ℚ) - dx * ((totalSpanMs st : ℚ) / w) + (totalSpanMs st : ℚ)) := rfl
    refine ⟨by omega, by omega, ?_⟩
    intro h2
    rw [hsv, hev]
    omega
  · -- expand right
    intro st h
    have hvs : (expandRightStep st).viewportStart = st.viewportStart := rfl
    have hve : (expandRightStep st).viewportEnd
        = jsTrunc ((st.viewportEnd : ℚ) + (totalSpanMs st : ℚ) * (1 / 2)) := rfl
    have hq : (st.viewportEnd : ℚ) ≤ (st.viewportEnd : ℚ) + (totalSpanMs st : ℚ) * (1 / 2) := by
      have hT : (0 : ℚ) ≤ (totalSpanMs st : ℚ) := by
        have : (0 : ℤ) ≤ totalSpanMs st := by unfold totalSpanMs; omega
        exact_mod_cast this
      linarith
    have hfl : st.viewportEnd
        ≤ ⌊(st.viewportEnd : ℚ) + (totalSpanMs st : ℚ) * (1 / 2)⌋ := Int.le_floor.mpr hq
    have hb := jsTrunc_bounds ((st.viewportEnd : ℚ) + (totalSpanMs st : ℚ) * (1 / 2))
    rw [hvs, hve]
    omega
  · -- expand left
    intro st now h
    unfold expandLeftStep
    by_cases hg : st.viewportStart > minDataDate st now - 7 * 86400000 + 1000
    · rw [if_pos hg]
      show jsTrunc (max ((minDataDate st now - 7 * 86400000 : ℤ) : ℚ)
          ((st.viewportStart : ℚ) - (totalSpanMs st : ℚ) * (1 / 2))) < st.viewportEnd
      have hT : (1 : ℚ) ≤ (totalSpanMs st : ℚ) := by
        have : (1 : ℤ) ≤ totalSpanMs st := by unfold totalSpanMs; omega
        exact_mod_cast this
      have hlim : ((minDataDate st now - 7 * 86400000 : ℤ) : ℚ) ≤ (st.viewportStart : ℚ) := by
        have : (minDataDate st now - 7 * 86400000 : ℤ) ≤ st.viewportStart := by omega
        exact_mod_cast this
      have hhalf : (st.viewportStart : ℚ) - (totalSpanMs st : ℚ) * (1 / 2)
          ≤ (st.viewportStart : ℚ) := by linarith
      have hmax : max ((minDataDate st now - 7 * 86400000 : ℤ) : ℚ)
          ((st.viewportStart : ℚ) - (totalSpanMs st : ℚ) * (1 / 2))
          ≤ (st.viewportStart : ℚ) := max_le hlim hhalf
      have hcl : ⌈max ((minDataDate st now - 7 * 86400000 : ℤ) : ℚ)
          ((st.viewportStart : ℚ) - (totalSpanMs st : ℚ) * (1 / 2))⌉
          ≤ st.viewportStart := Int.ceil_le.mpr hmax
      have hb := jsTrunc_bounds (max ((minDataDate st now - 7 * 86400000 : ℤ) : ℚ)
          ((st.viewportStart : ℚ) - (totalSpanMs st : ℚ) * (1 / 2)))
      omega
    · rw [if_neg hg]
      exact h
  · -- fitToData on a non-empty collection
    intro st h
    unfold fitToData
    match hcf : calculateFitToData (filteredWorkOrders st.workOrders st.statusFilter)
        st.timeScale with
    | none =>
      match hfw : filteredWorkOrders st.workOrders st.statusFilter, h with
      | o :: rest, _ =>
        rw [hfw] at hcf
        exact absurd hcf (by unfold calculateFitToData; exact Option.noConfusion)
    | some (s, e) =>
      have := calculateFitToData_span _ _ _ _ hcf
      show s < e
      omega
  · -- centerOn via calculateViewportRange
    intro date scale
    cases scale
    · show scaleFloor TimeScale.Day (dayOffset date (-10))
        < scaleCeil TimeScale.Day (dayOffset date 10)
      have h1 := scaleFloor_le TimeScale.Day (dayOffset date (-10))
      have h2 := le_scaleCeil TimeScale.Day (dayOffset date 10)
      have h3 : dayOffset date (-10) < dayOffset date 10 := by
        unfold dayOffset msPerDay
        omega
      omega
    · show scaleFloor TimeScale.Week (weekOffset date (-5))
        < scaleCeil TimeScale.Week (weekOffset date 5)
      have h1 := scaleFloor_le TimeScale.Week (weekOffset date (-5))
      have h2 := le_scaleCeil TimeScale.Week (weekOffset date 5)
      have h3 : weekOffset date (-5) < weekOffset date 5 := by
        unfold weekOffset msPerWeek
        omega
      omega
    · show scaleFloor TimeScale.Month (monthOffset date (-6))
        < scaleCeil TimeScale.Month (monthOffset date 6)
      have h1 := scaleFloor_le TimeScale.Month (monthOffset date (-6))
      have h2 := le_scaleCeil TimeScale.Month (monthOffset date 6)
      have h3 := monthOffset_lt_monthOffset date (-6) 6 (by omega)
      omega

/-- C6 counterexample: in the initial component state the viewport
start equals the viewport end, so `start < end` does not hold
initially. -/
theorem claim_C6_counterexample :
    ¬ ((initialTimelineState 0 []).viewportStart
        < (initialTimelineState 0 []).viewportEnd) := by
  decide

/-- State for the C6 amended witness. -/
def cexC6WState : TimelineState :=
  { viewportStart := 0, viewportEnd := 1000, timeScale := .Day,
    cursorDate := none, statusFilter := none, workOrders := [] }

/-- C6 amended witness: a right-expansion of a valid viewport keeps
`start < end`. -/
theorem claim_C6_amended_witness :
    (expandRightStep cexC6WState).viewportStart < (expandRightStep cexC6WState).viewportEnd :=
  claim_C6_amended.2.2.1 cexC6WState (by decide)

/-! ## Bar dragging (claims C5 and C7) -/

/-- `toIso` formats an instant as a `yyyy-MM-dd` string; the timestamp
that string denotes when parsed back is the instant's day floor. -/
def toIso (t : ℤ) : ℤ := dayFloor t

/-- `d3.timeDay.round`: the nearest day boundary (ties round up). -/
def dayRound (t : ℤ) : ℤ := dayFloor (t + 43200000)

/-- Bar-drag modes. -/
inductive DragMode where
  | move : DragMode
  | resizeStart : DragMode
  | resizeEnd : DragMode
deriving DecidableEq

/-- The component's `dragState`: the dragged order's id and its dates
at pointer-down. -/
structure DragState where
  orderId : String
  mode : DragMode
  originalStart : ℤ
  originalEnd : ℤ

/-- The candidate `(startIso, endIso)` pair a bar-drag frame computes
(as the parsed values of the ISO strings).  A move shifts the original
start by the pointer delta, snaps it to a day boundary, and preserves
the original duration; a resize snaps the dragged edge and keeps it
only when it stays on the correct side of the opposite original edge,
otherwise the stored date is kept. -/
def dragCandidate (ds : DragState) (targetOrder : WorkOrderDocument) (deltaMs : ℚ) :
    ℤ × ℤ :=
  match ds.mode with
  | .move =>
    let duration := ds.originalEnd - ds.originalStart
    let newStart := dayRound (jsTrunc ((ds.originalStart : ℚ) + deltaMs))
    (toIso newStart, toIso (newStart + duration))
  | .resizeStart =>
    let snapped := dayRound (jsTrunc ((ds.originalStart : ℚ) + deltaMs))
    (if snapped < ds.originalEnd then toIso snapped else targetOrder.data.startDate,
      targetOrder.data.endDate)
  | .resizeEnd =>
    let snapped := dayRound (jsTrunc ((ds.originalEnd : ℚ) + deltaMs))
    (targetOrder.data.startDate,
      if ds.originalStart < snapped then toIso snapped else targetOrder.data.endDate)

/-- The data committed by a successful drag frame: the target's data
with the candidate dates written through `toIso`. -/
def dragCommittedData (ds : DragState) (targetOrder : WorkOrderDocument)
    (deltaMs : ℚ) : WorkOrderData :=
  { targetOrder.data with
    startDate := (dragCandidate ds targetOrder deltaMs).1,
    endDate := (dragCandidate ds targetOrder deltaMs).2 }

/-- One bar-drag frame of `onGlobalMouseMove`: finds the dragged order,
computes the candidate range, and commits it through
`updateWorkOrder` unless `checkOverlap` (excluding the dragged order
itself) reports a conflict, in which case the frame returns with the
store untouched. -/
def onGlobalMouseMoveDrag (st : TimelineState) (ds : DragState) (dxPx rectWidth : ℚ) :
    TimelineState :=
  match (filteredWorkOrders st.workOrders st.statusFilter).find?
      (fun o => decide (o.docId = ds.orderId)) with
  | none => st
  | some targetOrder =>
    match checkOverlap st.workOrders targetOrder.data.workCenterId
        (dragCandidate ds targetOrder (dxPx * ((totalSpanMs st : ℚ) / rectWidth))).1
        (dragCandidate ds targetOrder (dxPx * ((totalSpanMs st : ℚ) / rectWidth))).2
        (some targetOrder.docId) with
    | some _ => st
    | none =>
      { st with
        workOrders := updateWorkOrder st.workOrders targetOrder.docId
          (dragCommittedData ds targetOrder (dxPx * ((totalSpanMs st : ℚ) / rectWidth))) }

/-- The status filter only removes documents. -/
theorem filteredWorkOrders_subset (orders : List WorkOrderDocument)
    (f : Option WorkOrderStatus) (o : WorkOrderDocument)
    (h : o ∈ filteredWorkOrders orders f) : o ∈ orders := by
  match f with
  | none => exact h
  | some s => exact List.mem_of_mem_filter h

/-- Updating an order with its own stored data leaves the collection
unchanged (given unique ids). -/
theorem updateWorkOrder_self (orders : List WorkOrderDocument) (t : WorkOrderDocument)
    (hmem : t ∈ orders) (hnodup : (orders.map fun o => o.docId).Nodup) :
    updateWorkOrder orders t.docId t.data = orders := by
  unfold updateWorkOrder
  have hpt : ∀ o ∈ orders, (if o.docId = t.docId then { o with data := t.data } else o) = o := by
    intro o ho
    by_cases hid : o.docId = t.docId
    · rw [if_pos hid]
      have hot : o = t := List.inj_on_of_nodup_map hnodup ho hmem hid
      rw [hot]
    · rw [if_neg hid]
  rw [List.map_congr_left hpt]
  exact List.map_id' orders

/-- C5: a bar-drag frame whose candidate range conflicts
(`checkOverlap`, excluding the dragged order itself, returns non-null)
leaves the order store unchanged; and a resize frame whose snapped edge
would make `start ≥ end` keeps the stored dates (the candidate falls
back to them), so the store state is also unchanged that frame — in
particular dragging the right edge so the candidate end would not
exceed the start leaves the stored dates unchanged, and `pointerup`
performs no further store action. -/
theorem claim_C5_drag_reject (st : TimelineState) (ds : DragState) (dx w : ℚ) :
    (∀ t o, (filteredWorkOrders st.workOrders st.statusFilter).find?
        (fun o' => decide (o'.docId = ds.orderId)) = some t →
      checkOverlap st.workOrders t.data.workCenterId
        (dragCandidate ds t (dx * ((totalSpanMs st : ℚ) / w))).1
        (dragCandidate ds t (dx * ((totalSpanMs st : ℚ) / w))).2
        (some t.docId) = some o →
      onGlobalMouseMoveDrag st ds dx w = st) ∧
    (∀ t, (filteredWorkOrders st.workOrders st.statusFilter).find?
        (fun o' => decide (o'.docId = ds.orderId)) = some t →
      (st.workOrders.map fun o => o.docId).Nodup →
      t.data.startDate = ds.originalStart →
      ds.mode = DragMode.resizeEnd →
      dayRound (jsTrunc ((ds.originalEnd : ℚ) + dx * ((totalSpanMs st : ℚ) / w)))
        ≤ t.data.startDate →
      onGlobalMouseMoveDrag st ds dx w = st) ∧
    (∀ t, (filteredWorkOrders st.workOrders st.statusFilter).find?
        (fun o' => decide (o'.docId = ds.orderId)) = some t →
      (st.workOrders.map fun o => o.docId).Nodup →
      t.data.endDate = ds.originalEnd →
      ds.mode = DragMode.resizeStart →
      t.data.endDate
        ≤ dayRound (jsTrunc ((ds.originalStart : ℚ) + dx * ((totalSpanMs st : ℚ) / w))) →
      onGlobalMouseMoveDrag st ds dx w = st) := by
  refine ⟨?_, ?_, ?_⟩
  · intro t o hfind hoverlap
    unfold onGlobalMouseMoveDrag
    simp only [hfind, hoverlap]
  · intro t hfind hnodup hs hmode hsnap
    have hcand : dragCandidate ds t (dx * ((totalSpanMs st : ℚ) / w))
        = (t.data.startDate, t.data.endDate) := by
      unfold dragCandidate
      simp only [hmode]
      rw [if_neg (by omega)]
    have hdata : dragCommittedData ds t (dx * ((totalSpanMs st : ℚ) / w)) = t.data := by
      unfold dragCommittedData
      rw [hcand]
    have hmem : t ∈ st.workOrders :=
      filteredWorkOrders_subset _ _ _ (List.mem_of_find?_eq_some hfind)
    unfold onGlobalMouseMoveDrag
    simp only [hfind, hcand]
    match hov : checkOverlap st.workOrders t.data.workCenterId t.data.startDate
        t.data.endDate (some t.docId) with
    | some _ => simp only [hov]
    | none =>
      simp only [hov, hdata]
      rw [updateWorkOrder_self st.workOrders t hmem hnodup]
  · intro t hfind hnodup he hmode hsnap
    have hcand : dragCandidate ds t (dx * ((totalSpanMs st : ℚ) / w))
        = (t.data.startDate, t.data.endDate) := by
      unfold dragCandidate
      simp only [hmode]
      rw [if_neg (by omega)]
    have hdata : dragCommittedData ds t (dx * ((totalSpanMs st : ℚ) / w)) = t.data := by
      unfold dragCommittedData
      rw [hcand]
    have hmem : t ∈ st.workOrders :=
      filteredWorkOrders_subset _ _ _ (List.mem_of_find?_eq_some hfind)
    unfold onGlobalMouseMoveDrag
    simp only [hfind, hcand]
    match hov : checkOverlap st.workOrders t.data.workCenterId t.data.startDate
        t.data.endDate (some t.docId) with
    | some _ => simp only [hov]
    | none =>
      simp only [hov, hdata]
      rw [updateWorkOrder_self st.workOrders t hmem hnodup]

/-- `jsTrunc` is the identity on integers. -/
theorem jsTrunc_intCast (n : ℤ) : jsTrunc (n : ℚ) = n := by
  unfold jsTrunc
  by_cases h : (n : ℚ) < 0
  · rw [if_pos h, Int.ceil_intCast]
  · rw [if_neg h, Int.floor_intCast]

/-- `dayRound` lands on a day boundary. -/
theorem dayRound_mod (x : ℤ) : dayRound x % 86400000 = 0 := by
  unfold dayRound dayFloor msPerDay
  omega

/-- `toIso` (write out as a date string, parse back) shifts exactly by
day-aligned offsets from day-aligned bases. -/
theorem toIso_shift (ns d : ℤ) (hns : ns % 86400000 = 0) (hd : d % 86400000 = 0) :
    toIso (ns + d) - toIso ns = d := by
  unfold toIso dayFloor msPerDay
  omega

/-- C7: a successful drag-move (a frame in `move` mode that passes the
overlap check and commits) preserves the dragged order's duration:
with calendar-date (day-aligned) original dates, the committed order
satisfies `newEnd - newStart = originalEnd - originalStart`. -/
theorem claim_C7_move_preserves_duration (st : TimelineState) (ds : DragState)
    (dx w : ℚ) (t : WorkOrderDocument)
    (hfind : (filteredWorkOrders st.workOrders st.statusFilter).find?
      (fun o' => decide (o'.docId = ds.orderId)) = some t)
    (hmode : ds.mode = DragMode.move)
    (halignS : ds.originalStart % 86400000 = 0)
    (halignE : ds.originalEnd % 86400000 = 0)
    (hcommit : checkOverlap st.workOrders t.data.workCenterId
      (dragCandidate ds t (dx * ((totalSpanMs st : ℚ) / w))).1
      (dragCandidate ds t (dx * ((totalSpanMs st : ℚ) / w))).2
      (some t.docId) = none) :
    ∀ o ∈ (onGlobalMouseMoveDrag st ds dx w).workOrders, o.docId = t.docId →
      o.data.endDate - o.data.startDate = ds.originalEnd - ds.originalStart := by
  have hcand : (dragCandidate ds t (dx * ((totalSpanMs st : ℚ) / w))).2
      - (dragCandidate ds t (dx * ((totalSpanMs st : ℚ) / w))).1
      = ds.originalEnd - ds.originalStart := by
    unfold dragCandidate
    simp only [hmode]
    show toIso (dayRound (jsTrunc ((ds.originalStart : ℚ) + dx * ((totalSpanMs st : ℚ) / w)))
        + (ds.originalEnd - ds.originalStart))
      - toIso (dayRound (jsTrunc ((ds.originalStart : ℚ) + dx * ((totalSpanMs st : ℚ) / w))))
      = ds.originalEnd - ds.originalStart
    exact toIso_shift _ _ (dayRound_mod _) (by omega)
  unfold onGlobalMouseMoveDrag
  simp only [hfind, hcommit]
  intro o hmemo hid
  have hmemo' : o ∈ updateWorkOrder st.workOrders t.docId
      (dragCommittedData ds t (dx * ((totalSpanMs st : ℚ) / w))) := hmemo
  unfold updateWorkOrder at hmemo'
  obtain ⟨o', ho', heq⟩ := List.mem_map.mp hmemo'
  by_cases h : o'.docId = t.docId
  · rw [if_pos h] at heq
    rw [← heq]
    show (dragCommittedData ds t (dx * ((totalSpanMs st : ℚ) / w))).endDate
      - (dragCommittedData ds t (dx * ((totalSpanMs st : ℚ) / w))).startDate
      = ds.originalEnd - ds.originalStart
    unfold dragCommittedData
    exact hcand
  · rw [if_neg h] at heq
    rw [← heq] at hid
    exact absurd hid h

/-- Order dragged in the C5/C7 witnesses: `wc-1`, day 0. -/
def cexDragA : WorkOrderDocument :=
  { docId := "wo-a", docType := "workOrder",
    data := { name := "A", workCenterId := "wc-1", status := .Open,
              startDate := 0, endDate := 86400000 } }

/-- Neighbouring order for the C5 witness: `wc-1`, days 1–2. -/
def cexDragB : WorkOrderDocument :=
  { docId := "wo-b", docType := "workOrder",
    data := { name := "B", workCenterId := "wc-1", status := .Open,
              startDate := 86400000, endDate := 259200000 } }

/-- Timeline state for the C5 witness: four-day viewport, two adjacent
orders. -/
def cexC5State : TimelineState :=
  { viewportStart := 0, viewportEnd := 345600000, timeScale := .Day,
    cursorDate := none, statusFilter := none, workOrders := [cexDragA, cexDragB] }

/-- Drag state for the C5 witness: moving `wo-a`. -/
def cexC5Drag : DragState :=
  { orderId := "wo-a", mode := .move, originalStart := 0, originalEnd := 86400000 }

/-- The pointer delta of the witness frames is exactly one day. -/
theorem cexDrag_delta : (1 : ℚ) * ((totalSpanMs cexC5State : ℚ) / 4) = ((86400000 : ℤ) : ℚ) := by
  show (1 : ℚ) * (((345600000 - 0 : ℤ) : ℚ) / 4) = ((86400000 : ℤ) : ℚ)
  norm_num

/-- The candidate of the witness move frame: `[day 1, day 2)`. -/
theorem cexDrag_candidate :
    dragCandidate cexC5Drag cexDragA ((1 : ℚ) * ((totalSpanMs cexC5State : ℚ) / 4))
      = (86400000, 172800000) := by
  unfold dragCandidate cexC5Drag
  simp only
  rw [cexDrag_delta]
  have h1 : ((0 : ℤ) : ℚ) + ((86400000 : ℤ) : ℚ) = ((86400000 : ℤ) : ℚ) := by norm_num
  have h2 : jsTrunc (((0 : ℤ) : ℚ) + ((86400000 : ℤ) : ℚ)) = 86400000 := by
    rw [h1, jsTrunc_intCast]
  rw [h2]
  unfold dayRound dayFloor toIso msPerDay
  decide

/-- C5 witness: a move frame of `wo-a` by one day collides with
`wo-b`, and the store is unchanged. -/
theorem claim_C5_drag_reject_witness :
    onGlobalMouseMoveDrag cexC5State cexC5Drag 1 4 = cexC5State := by
  apply (claim_C5_drag_reject cexC5State cexC5Drag 1 4).1 cexDragA cexDragB
  · rfl
  · rw [cexDrag_candidate]
    decide

/-- Timeline state for the C7 witness: four-day viewport, one order. -/
def cexC7State : TimelineState :=
  { viewportStart := 0, viewportEnd := 345600000, timeScale := .Day,
    cursorDate := none, statusFilter := none, workOrders := [cexDragA] }

/-- The document `wo-a` becomes after the witness move frame commits:
shifted one day, same one-day duration. -/
def cexC7Updated : WorkOrderDocument :=
  { docId := "wo-a", docType := "workOrder",
    data := { name := "A", workCenterId := "wc-1", status := .Open,
              startDate := 86400000, endDate := 172800000 } }

/-- C7 witness: after a committed one-day move of `wo-a` (no conflict
in a single-order store), the updated order keeps its one-day
duration. -/
theorem claim_C7_move_preserves_duration_witness :
    cexC7Updated.data.endDate - cexC7Updated.data.startDate
      = cexC5Drag.originalEnd - cexC5Drag.originalStart := by
  have hc : dragCandidate cexC5Drag cexDragA
      ((1 : ℚ) * ((totalSpanMs cexC7State : ℚ) / 4)) = (86400000, 172800000) := by
    have hspan : totalSpanMs cexC7State = totalSpanMs cexC5State := rfl
    rw [hspan]
    exact cexDrag_candidate
  have hcommit : checkOverlap cexC7State.workOrders cexDragA.data.workCenterId
      (dragCandidate cexC5Drag cexDragA ((1 : ℚ) * ((totalSpanMs cexC7State : ℚ) / 4))).1
      (dragCandidate cexC5Drag cexDragA ((1 : ℚ) * ((totalSpanMs cexC7State : ℚ) / 4))).2
      (some cexDragA.docId) = none := by
    rw [hc]
    decide
  have hD : dragCommittedData cexC5Drag cexDragA
      ((1 : ℚ) * ((totalSpanMs cexC7State : ℚ) / 4)) = cexC7Updated.data := by
    unfold dragCommittedData
    rw [hc]
    rfl
  have hfind : (filteredWorkOrders cexC7State.workOrders cexC7State.statusFilter).find?
      (fun o' => decide (o'.docId = cexC5Drag.orderId)) = some cexDragA := rfl
  have hmem : cexC7Updated ∈ (onGlobalMouseMoveDrag cexC7State cexC5Drag 1 4).workOrders := by
    unfold onGlobalMouseMoveDrag
    simp only [hfind, hcommit, hD]
    show cexC7Updated ∈ updateWorkOrder cexC7State.workOrders cexDragA.docId cexC7Updated.data
    decide
  exact claim_C7_move_preserves_duration cexC7State cexC5Drag 1 4 cexDragA hfind rfl
    (by decide) (by decide) hcommit cexC7Updated hmem rfl

/-! ## Column headers (claim C10) -/

/-- A rendered column header (`ColumnHeader` in
`work-order-timeline.types.ts`; the presentational `label` string is
omitted). -/
structure ColumnHeader where
  date : ℤ
  isCurrent : Bool
  left : ℚ
  width : ℚ

/-- `isDateInCurrentPeriod`. -/
def isDateInCurrentPeriod (colDate now : ℤ) (scale : TimeScale) : Bool :=
  match scale with
  | .Day => decide (dayFloor colDate = dayFloor now)
  | .Week => decide (weekFloor now ≤ colDate ∧ colDate < weekOffset (weekFloor now) 1)
  | .Month => decide (monthFloor colDate = monthFloor now)

/-- `interval.range`, fuelled: grid boundaries from `b` (a boundary)
up to but excluding `stop`, stepping one unit at a time. -/
def intervalRangeAux (s : TimeScale) (stop : ℤ) : ℕ → ℤ → List ℤ
  | 0, _ => []
  | Nat.succ fuel, b =>
    if b < stop then b :: intervalRangeAux s stop fuel (scaleOffset s b 1) else []

/-- `interval.range start stop` (each step advances at least 1 ms, so
`(stop - start).toNat` is enough fuel). -/
def intervalRange (s : TimeScale) (start stop : ℤ) : List ℤ :=
  intervalRangeAux s stop (stop - start).toNat start

/-- One column of `calculateColumns`: the tick's period clamped to the
viewport, as percentages of the total span. -/
def buildColumn (scale : TimeScale) (start stop now tickDate : ℤ) : ColumnHeader :=
  { date := tickDate,
    isCurrent := isDateInCurrentPeriod tickDate now scale,
    left := ((max start tickDate - start : ℤ) : ℚ) / ((stop - start : ℤ) : ℚ) * 100,
    width := ((min stop (scaleOffset scale tickDate 1) - max start tickDate : ℤ) : ℚ)
      / ((stop - start : ℤ) : ℚ) * 100 }

/-- `calculateColumns`: ticks over `[floor start, ceil stop)`, mapped to
clamped columns, dropping zero-width columns. -/
def calculateColumns (scale : TimeScale) (start stop now : ℤ) : List ColumnHeader :=
  if stop - start ≤ 0 then []
  else
    ((intervalRange scale (scaleFloor scale start) (scaleCeil scale stop)).map
      (buildColumn scale start stop now)).filter fun col => decide (0 < col.width)

/-! ### Tick-list lemmas -/

theorem intervalRangeAux_eq_nil_iff (s : TimeScale) (stop : ℤ) :
    ∀ (fuel : ℕ) (b : ℤ), (stop - b).toNat ≤ fuel →
      (intervalRangeAux s stop fuel b = [] ↔ stop ≤ b) := by
  intro fuel
  induction fuel with
  | zero =>
    intro b hf
    unfold intervalRangeAux
    constructor
    · intro _
      omega
    · intro _
      rfl
  | succ fuel ih =>
    intro b hf
    unfold intervalRangeAux
    by_cases hb : b < stop
    · rw [if_pos hb]
      constructor
      · intro h
        exact absurd h (List.cons_ne_nil _ _)
      · intro h
        omega
    · rw [if_neg hb]
      constructor
      · intro _
        omega
      · intro _
        rfl

theorem intervalRangeAux_head (s : TimeScale) (stop : ℤ) (fuel : ℕ) (b x : ℤ)
    (h : (intervalRangeAux s stop fuel b).head? = some x) : x = b := by
  match fuel with
  | 0 => exact absurd h (by unfold intervalRangeAux; exact Option.noConfusion)
  | Nat.succ fuel =>
    unfold intervalRangeAux at h
    by_cases hb : b < stop
    · rw [if_pos hb] at h
      rw [List.head?_cons, Option.some_inj] at h
      omega
    · rw [if_neg hb] at h
      exact absurd h (by exact Option.noConfusion)

theorem intervalRangeAux_mem (s : TimeScale) (stop : ℤ) :
    ∀ (fuel : ℕ) (b x : ℤ), x ∈ intervalRangeAux s stop fuel b → b ≤ x ∧ x < stop := by
  intro fuel
  induction fuel with
  | zero =>
    intro b x hx
    exact absurd hx (by unfold intervalRangeAux; exact List.not_mem_nil x)
  | succ fuel ih =>
    intro b x hx
    unfold intervalRangeAux at hx
    by_cases hb : b < stop
    · rw [if_pos hb] at hx
      rcases List.mem_cons.mp hx with rfl | hx
      · omega
      · have h1 := ih (scaleOffset s b 1) x hx
        have h2 := lt_scaleOffset_one s b
        omega
    · rw [if_neg hb] at hx
      exact absurd hx (List.not_mem_nil x)

theorem intervalRangeAux_boundary (s : TimeScale) (stop : ℤ) :
    ∀ (fuel : ℕ) (b : ℤ), scaleFloor s b = b →
      ∀ x ∈ intervalRangeAux s stop fuel b, scaleFloor s x = x := by
  intro fuel
  induction fuel with
  | zero =>
    intro b hb x hx
    exact absurd hx (by unfold intervalRangeAux; exact List.not_mem_nil x)
  | succ fuel ih =>
    intro b hb x hx
    unfold intervalRangeAux at hx
    by_cases hblt : b < stop
    · rw [if_pos hblt] at hx
      rcases List.mem_cons.mp hx with rfl | hx
      · exact hb
      · have hnext : scaleFloor s (scaleOffset s b 1) = scaleOffset s b 1 := by
          have h := scaleFloor_scaleOffset_floor s b
          rw [hb] at h
          exact h
        exact ih (scaleOffset s b 1) hnext x hx
    · rw [if_neg hblt] at hx
      exact absurd hx (List.not_mem_nil x)

theorem intervalRangeAux_last (s : TimeScale) (stop : ℤ) :
    ∀ (fuel : ℕ) (b : ℤ), (stop - b).toNat ≤ fuel →
      ∀ x, (intervalRangeAux s stop fuel b).getLast? = some x →
        stop ≤ scaleOffset s x 1 := by
  intro fuel
  induction fuel with
  | zero =>
    intro b hf x hx
    exact absurd hx (by unfold intervalRangeAux; exact Option.noConfusion)
  | succ fuel ih =>
    intro b hf x hx
    unfold intervalRangeAux at hx
    by_cases hb : b < stop
    · rw [if_pos hb] at hx
      match hrest : intervalRangeAux s stop fuel (scaleOffset s b 1) with
      | [] =>
        rw [hrest, List.getLast?_singleton, Option.some_inj] at hx
        have hstep := lt_scaleOffset_one s b
        have hnil := (intervalRangeAux_eq_nil_iff s stop fuel (scaleOffset s b 1)
          (by omega)).mp hrest
        subst hx
        exact hnil
      | y :: tl =>
        rw [hrest, List.getLast?_cons_cons] at hx
        have hstep := lt_scaleOffset_one s b
        have := ih (scaleOffset s b 1) (by omega) x (by rw [hrest]; exact hx)
        exact this
    · rw [if_neg hb] at hx
      exact absurd hx (by exact Option.noConfusion)

/-! ### Boundary lemmas -/

/-- A boundary at or after `scaleFloor s t` is `scaleFloor s t` itself
or at least the next boundary. -/
theorem boundary_cases (s : TimeScale) (t x : ℤ) (hb : scaleFloor s x = x)
    (h1 : scaleFloor s t ≤ x) :
    x = scaleFloor s t ∨ scaleOffset s (scaleFloor s t) 1 ≤ x := by
  by_cases h : x < scaleOffset s (scaleFloor s t) 1
  · left
    have heq := scaleFloor_eq_of_between s t x h1 h
    rw [hb] at heq
    exact heq
  · right
    omega

/-- A boundary strictly before `scaleCeil s stop` is strictly before
`stop`. -/
theorem boundary_lt_stop (s : TimeScale) (stop x : ℤ) (hb : scaleFloor s x = x)
    (h : x < scaleCeil s stop) : x < stop := by
  by_contra hc
  have hle := scaleFloor_le s (stop - 1)
  rcases boundary_cases s (stop - 1) x hb (by omega) with h1 | h1
  · omega
  · have hceil : scaleCeil s stop = scaleOffset s (scaleFloor s (stop - 1)) 1 :=
      scaleFloor_scaleOffset_floor s (stop - 1)
    omega

/-- Adjacent columns in the mapped tick list tile exactly: each
column's `left + width` is the next column's `left`, and dates
ascend. -/
theorem intervalRangeAux_cols_chain (scale : TimeScale) (start stop now : ℤ) :
    ∀ (fuel : ℕ) (b : ℤ), scaleFloor scale b = b →
      (scaleCeil scale stop - b).toNat ≤ fuel → start < scaleOffset scale b 1 →
      List.Chain' (fun a c => a.left + a.width = c.left ∧ a.date < c.date)
        ((intervalRangeAux scale (scaleCeil scale stop) fuel b).map
          (buildColumn scale start stop now)) := by
  intro fuel
  induction fuel with
  | zero =>
    intro b hb hf hs
    unfold intervalRangeAux
    exact List.chain'_nil
  | succ fuel ih =>
    intro b hb hf hs
    unfold intervalRangeAux
    by_cases hblt : b < scaleCeil scale stop
    · rw [if_pos hblt, List.map_cons]
      apply List.chain'_cons'.mpr
      have hstep := lt_scaleOffset_one scale b
      have hnextb : scaleFloor scale (scaleOffset scale b 1) = scaleOffset scale b 1 := by
        have h := scaleFloor_scaleOffset_floor scale b
        rw [hb] at h
        exact h
      constructor
      · intro y hy
        rw [List.head?_map] at hy
        match hhd : (intervalRangeAux scale (scaleCeil scale stop) fuel
            (scaleOffset scale b 1)).head? with
        | none =>
          rw [hhd] at hy
          exact absurd hy (by exact Option.noConfusion)
        | some x =>
          rw [hhd] at hy
          have hy' : buildColumn scale start stop now x = y := by
            simpa using hy
          have hx := intervalRangeAux_head scale (scaleCeil scale stop) fuel
            (scaleOffset scale b 1) x hhd
          subst hx
          rw [← hy']
          -- the next boundary is still inside the tick range
          have hne : intervalRangeAux scale (scaleCeil scale stop) fuel
              (scaleOffset scale b 1) ≠ [] := by
            intro hnil
            rw [hnil] at hhd
            exact Option.noConfusion hhd
          have hlt : scaleOffset scale b 1 < scaleCeil scale stop := by
            by_contra hge
            exact hne ((intervalRangeAux_eq_nil_iff scale (scaleCeil scale stop) fuel
              (scaleOffset scale b 1) (by omega)).mpr (by omega))
          have hltstop : scaleOffset scale b 1 < stop :=
            boundary_lt_stop scale stop (scaleOffset scale b 1) hnextb hlt
          constructor
          · -- left + width of col b equals left of col (next b)
            unfold buildColumn
            have hmin : min stop (scaleOffset scale b 1) = scaleOffset scale b 1 :=
              min_eq_right (by omega)
            have hmax : max start (scaleOffset scale b 1) = scaleOffset scale b 1 :=
              max_eq_right (by omega)
            rw [hmin, hmax]
            push_cast
            ring
          · -- dates ascend
            unfold buildColumn
            exact hstep
      · have hstep2 := lt_scaleOffset_one scale (scaleOffset scale b 1)
        exact ih (scaleOffset scale b 1) hnextb (by omega) (by omega)
    · rw [if_neg hblt]
      exact List.chain'_nil

/-- C10: for every scale and every viewport with `start < end`, the
column headers exactly tile the viewport: the list is non-empty, every
column has strictly positive width, dates strictly ascend, the first
column's left fraction is 0, each column's `left + width` is the next
column's `left`, and the last column's `left + width` is 100. -/
theorem claim_C10_columns_tile (scale : TimeScale) (start stop now : ℤ)
    (h : start < stop) :
    calculateColumns scale start stop now ≠ [] ∧
    (∀ col ∈ calculateColumns scale start stop now, 0 < col.width) ∧
    List.Chain' (fun a b => a.date < b.date) (calculateColumns scale start stop now) ∧
    (∀ col0, (calculateColumns scale start stop now).head? = some col0 →
      col0.left = 0) ∧
    List.Chain' (fun a b => a.left + a.width = b.left)
      (calculateColumns scale start stop now) ∧
    (∀ colN, (calculateColumns scale start stop now).getLast? = some colN →
      colN.left + colN.width = 100) := by
  have hTpos : (0 : ℚ) < ((stop - start : ℤ) : ℚ) := by
    exact_mod_cast (by omega : (0 : ℤ) < stop - start)
  have hb0 : scaleFloor scale (scaleFloor scale start) = scaleFloor scale start :=
    scaleFloor_idem scale start
  have hb0le : scaleFloor scale start ≤ start := scaleFloor_le scale start
  have hstop : stop ≤ scaleCeil scale stop := le_scaleCeil scale stop
  have hb0lt : scaleFloor scale start < scaleCeil scale stop := by omega
  -- the per-tick facts
  have htickfacts : ∀ x ∈ intervalRange scale (scaleFloor scale start) (scaleCeil scale stop),
      scaleFloor scale x = x ∧ x < stop ∧ start < scaleOffset scale x 1 ∧ x < scaleOffset scale x 1 := by
    intro x hx
    have hbd := intervalRangeAux_boundary scale (scaleCeil scale stop) _ _ hb0 x hx
    have hmem := intervalRangeAux_mem scale (scaleCeil scale stop) _ _ x hx
    have hlt := boundary_lt_stop scale stop x hbd hmem.2
    have hstep := lt_scaleOffset_one scale x
    refine ⟨hbd, hlt, ?_, hstep⟩
    rcases boundary_cases scale start x hbd hmem.1 with h1 | h1
    · rw [h1]
      exact lt_scaleOffset_scaleFloor scale start
    · have := lt_scaleOffset_scaleFloor scale start
      omega
  -- all rendered widths are positive
  have hpos : ∀ col ∈ (intervalRange scale (scaleFloor scale start)
      (scaleCeil scale stop)).map (buildColumn scale start stop now), 0 < col.width := by
    intro col hcol
    obtain ⟨x, hx, rfl⟩ := List.mem_map.mp hcol
    obtain ⟨hbd, hlt, hso, hstep⟩ := htickfacts x hx
    show (0 : ℚ) < ((min stop (scaleOffset scale x 1) - max start x : ℤ) : ℚ)
      / ((stop - start : ℤ) : ℚ) * 100
    have hnum : (0 : ℤ) < min stop (scaleOffset scale x 1) - max start x := by omega
    have hnumq : (0 : ℚ) < ((min stop (scaleOffset scale x 1) - max start x : ℤ) : ℚ) := by
      exact_mod_cast hnum
    have := div_pos hnumq hTpos
    nlinarith
  have hTne : ¬ (stop - start ≤ 0) := by omega
  have hcols : calculateColumns scale start stop now
      = (intervalRange scale (scaleFloor scale start) (scaleCeil scale stop)).map
        (buildColumn scale start stop now) := by
    unfold calculateColumns
    rw [if_neg hTne]
    apply List.filter_eq_self.mpr
    intro col hcol
    exact decide_eq_true (hpos col hcol)
  have hne : intervalRange scale (scaleFloor scale start) (scaleCeil scale stop) ≠ [] := by
    intro hnil
    have := (intervalRangeAux_eq_nil_iff scale (scaleCeil scale stop) _
      (scaleFloor scale start) (le_refl _)).mp hnil
    omega
  have hchain := intervalRangeAux_cols_chain scale start stop now
    ((scaleCeil scale stop - scaleFloor scale start).toNat) (scaleFloor scale start)
    hb0 (le_refl _) (lt_scaleOffset_scaleFloor scale start)
  rw [hcols]
  refine ⟨?_, hpos, ?_, ?_, ?_, ?_⟩
  · intro hnil
    exact hne (List.map_eq_nil_iff.mp hnil)
  · exact hchain.imp fun a b hab => hab.2
  · intro col0 hcol0
    rw [List.head?_map] at hcol0
    match hhd : (intervalRange scale (scaleFloor scale start) (scaleCeil scale stop)).head? with
    | none =>
      rw [hhd] at hcol0
      exact absurd hcol0 (by exact Option.noConfusion)
    | some x =>
      rw [hhd] at hcol0
      have hcol0' : buildColumn scale start stop now x = col0 := by simpa using hcol0
      have hx := intervalRangeAux_head scale (scaleCeil scale stop) _ _ x hhd
      subst hx
      rw [← hcol0']
      show ((max start (scaleFloor scale start) - start : ℤ) : ℚ)
        / ((stop - start : ℤ) : ℚ) * 100 = 0
      rw [max_eq_left hb0le]
      simp
  · exact hchain.imp fun a b hab => hab.1
  · intro colN hcolN
    rw [List.getLast?_map] at hcolN
    match hlast : (intervalRange scale (scaleFloor scale start) (scaleCeil scale stop)).getLast? with
    | none =>
      rw [hlast] at hcolN
      exact absurd hcolN (by exact Option.noConfusion)
    | some x =>
      rw [hlast] at hcolN
      have hcolN' : buildColumn scale start stop now x = colN := by simpa using hcolN
      have hx := intervalRangeAux_last scale (scaleCeil scale stop) _ _ (le_refl _) x hlast
      have hxmem : x ∈ intervalRange scale (scaleFloor scale start) (scaleCeil scale stop) := by
        exact List.mem_of_mem_getLast? hlast
      obtain ⟨hbd, hlt, hso, hstep⟩ := htickfacts x hxmem
      rw [← hcolN']
      show ((max start x - start : ℤ) : ℚ) / ((stop - start : ℤ) : ℚ) * 100
        + ((min stop (scaleOffset scale x 1) - max start x : ℤ) : ℚ)
          / ((stop - start : ℤ) : ℚ) * 100 = 100
    -- the last column is clipped at the viewport end
      have hmin : min stop (scaleOffset scale x 1) = stop := min_eq_left (by omega)
      rw [hmin]
      have hTne' : ((stop - start : ℤ) : ℚ) ≠ 0 := ne_of_gt hTpos
      have hcomb : ((max start x - start : ℤ) : ℚ) / ((stop - start : ℤ) : ℚ) * 100
          + ((stop - max start x : ℤ) : ℚ) / ((stop - start : ℤ) : ℚ) * 100
          = ((stop - start : ℤ) : ℚ) / ((stop - start : ℤ) : ℚ) * 100 := by
        push_cast
        ring
      rw [hcomb, div_self hTne']
      norm_num

/-- C10 witness: a two-day viewport at scale `Day`. -/
theorem claim_C10_columns_tile_witness :
    calculateColumns TimeScale.Day 0 172800000 0 ≠ [] ∧
    (∀ col ∈ calculateColumns TimeScale.Day 0 172800000 0, 0 < col.width) ∧
    List.Chain' (fun a b => a.date < b.date) (calculateColumns TimeScale.Day 0 172800000 0) ∧
    (∀ col0, (calculateColumns TimeScale.Day 0 172800000 0).head? = some col0 →
      col0.left = 0) ∧
    List.Chain' (fun a b => a.left + a.width = b.left)
      (calculateColumns TimeScale.Day 0 172800000 0) ∧
    (∀ colN, (calculateColumns TimeScale.Day 0 172800000 0).getLast? = some colN →
      colN.left + colN.width = 100) :=
  claim_C10_columns_tile TimeScale.Day 0 172800000 0 (by decide)
